import Mathlib

/-!
A shallow embedding of `src/AudioFileSourceHTTPStream.cpp`, the HTTP streaming
source of the audio library: open, ranged open, blocking and non-blocking read
with reconnection, forward seek; and the properties of its position
bookkeeping.

The HTTP client, the socket, the clock and the status callback are external
to the file.  The transport is a record of operations over an arbitrary world
type `W`, so a theorem quantified over the record holds for every transport
behaviour.  What the object does to its environment is recorded in a trace.
-/

namespace AudioFileSourceHTTPStream

/-! ## Machine integers -/

/-- Conversion to `uint32_t`. -/
def u32 (v : Int) : Int := v % 4294967296

/-- Conversion to `int` (32 bits, two's complement). -/
def i32 (v : Int) : Int := (v + 2147483648) % 4294967296 - 2147483648

/-- The class declaration lives in the header `AudioFileSourceHTTPStream.h`,
which is not among the sources.  The embedding takes from it what the code
depends on: whether the members `pos` and `size` are signed (`int`, as the cast
in `(uint32_t)(pos - size)` and the `%d` of `size-1` indicate) or `uint32_t`,
and `sizeof(saveURL)`. -/
structure Decl where
  signedFields : Bool
  saveURLSize : Nat
  deriving DecidableEq, Repr

/-- Conversion of a value to the type of the members `pos` and `size`. -/
def wrap (D : Decl) (v : Int) : Int := if D.signedFields then i32 v else u32 v

/-- The value `HTTP_CODE_OK` of the HTTP client library. -/
def HTTP_CODE_OK : Int := 200

/-- The value `HTTP_CODE_PARTIAL_CONTENT` of the HTTP client library. -/
def HTTP_CODE_PARTIAL_CONTENT : Int := 206

/-- The value `SEEK_SET` of the C library. -/
def SEEK_SET : Int := 0

/-- How a method ends in the embedding: with a result, with the fuel of the
embedding used up, or in undefined behaviour, the message of a reconnect
attempt having been written past the end of `char buff[32]`. -/
inductive Res (α : Type) where
  | ok (a : α)
  | fuel
  | overrun
  deriving DecidableEq, Repr

/-- The result, when there is one. -/
def Res.get? {α : Type} : Res α → Option α
  | Res.ok a => some a
  | _ => none

/-! ## Environment -/

/-- A C string: its bytes, the terminator left out. -/
abbrev CStr := List Nat

/-- The status codes passed to the callback `cb.st`. -/
inductive Status where
  | HTTPFAIL
  | DISCONNECTED
  | RECONNECTING
  | RECONNECTED
  | NODATA
  deriving DecidableEq, Repr

/-- What the object does to its environment, in the order it does it, with
what the environment answered.  The texts of the messages are not recorded. -/
inductive Event where
  /-- The call `cb.st(code, msg)`. -/
  | st (code : Status)
  /-- A line on `audioLogger` or `Serial`. -/
  | log
  /-- The call `http.begin(client, url)`; each `open` starts with one. -/
  | begin (url : CStr)
  /-- The call `http.GET()` and the status code it returned. -/
  | get (code : Int)
  /-- The call `http.getSize()` and the size it returned. -/
  | size (ret : Int)
  /-- The call `http.addHeader("Range", ...)` with the two numbers that
  `"bytes=%d-%d"` prints. -/
  | range (first last : Int)
  /-- The call `stream->read(data, len)` and what it returned. -/
  | streamRead (len ret : Int)
  deriving DecidableEq, Repr

/-- The transport: the calls the code makes on `http`, on the stream behind
it and on the clock.  Every call may change the world and answers from it. -/
structure Transport (W : Type) where
  httpBegin : CStr → W → W
  setReuse : Bool → W → W
  collectHeaders : W → W
  GET : W → Int × W
  sendHEAD : W → Int × W
  /-- The test `http.header("Accept-Ranges").equals("bytes")`. -/
  acceptRangesBytes : W → Bool × W
  addHeaderRange : Int → Int → W → W
  getSize : W → Int × W
  httpEnd : W → W
  connected : W → Bool × W
  available : W → Int × W
  read : Int → W → Int × W
  millis : W → Int × W
  yield : W → W
  delay : Int → W → W

/-- The members of the object, and the trace of what it did so far. -/
structure State where
  pos : Int
  size : Int
  reconnectTries : Int
  reconnectDelayMs : Int
  saveURL : CStr
  trace : List Event
  deriving DecidableEq, Repr

/-- Append an event to the trace. -/
def emit (s : State) (e : Event) : State := { s with trace := s.trace ++ [e] }

/-- The method `getPos()`, of return type `uint32_t`. -/
def getPos (s : State) : Int := u32 s.pos

/-- The method `getSize()`, of return type `uint32_t`. -/
def getSize (s : State) : Int := u32 s.size

/-- The number of `cb.st` notifications with the code `c` in a trace. -/
def statusCount (c : Status) (tr : List Event) : Nat := tr.count (Event.st c)

/-- The number of `open` calls (each begins a request) in a trace. -/
def opens : List Event → Nat
  | [] => 0
  | Event.begin _ :: r => opens r + 1
  | _ :: r => opens r

/-- The byte counts returned by the `stream->read` calls of a trace. -/
def streamReads : List Event → List Int
  | [] => []
  | Event.streamRead _ ret :: r => ret :: streamReads r
  | _ :: r => streamReads r

/-- The lengths requested by the `stream->read` calls of a trace. -/
def streamRequests : List Event → List Int
  | [] => []
  | Event.streamRead len _ :: r => len :: streamRequests r
  | _ :: r => streamRequests r

/-- The number of `open` calls made so far. -/
def nOpen (s : State) : Nat := opens s.trace

/-- The number of notifications with the code `c` made so far. -/
def nSt (c : Status) (s : State) : Nat := statusCount c s.trace

/-- The codes of the `cb.st` notifications of a trace, in order. -/
def statuses : List Event → List Status
  | [] => []
  | Event.st c :: r => c :: statuses r
  | _ :: r => statuses r

/-- The notifications of `k` reconnect attempts that all fail: each is a
`RECONNECTING`, then the `HTTPFAIL` of the `open` that failed. -/
def failedAttempts : Nat → List Status
  | 0 => []
  | k + 1 => Status.RECONNECTING :: Status.HTTPFAIL :: failedAttempts k

/-! ## The message of a reconnect attempt -/

/-- The text that the format `"Attempting to reconnect, try %d"` puts before
the number. -/
def reconnectText : String := "Attempting to reconnect, try "

/-- The number of characters that `%d` prints for a try number (an `int` that
is not negative has at most 10 digits). -/
def decimalLength (i : Nat) : Nat :=
  if i < 10 then 1 else if i < 100 then 2 else if i < 1000 then 3
  else if i < 10000 then 4 else if i < 100000 then 5 else if i < 1000000 then 6
  else if i < 10000000 then 7 else if i < 100000000 then 8
  else if i < 1000000000 then 9 else 10

/-- The size of `char buff[32]`. -/
def buffSize : Nat := 32

/-- Whether `sprintf_P(buff, PSTR("Attempting to reconnect, try %d"), i)` stays
within `buff`: the text, the number and the terminator. -/
def messageFits (i : Nat) : Bool := reconnectText.length + decimalLength i + 1 ≤ buffSize

/-! ## The methods -/

variable {W : Type}

/-- The method `open(const char *url)`.  The first statement is `pos = 0`. -/
def openURL (D : Decl) (T : Transport W) (url : CStr) (s : State) (w : W) :
    Bool × State × W :=
  let s1 := emit { s with pos := 0 } (Event.begin url)
  let g := T.GET (T.setReuse true (T.httpBegin url w))
  let s2 := emit s1 (Event.get g.1)
  if g.1 ≠ HTTP_CODE_OK then
    (false, emit s2 (Event.st Status.HTTPFAIL), T.httpEnd g.2)
  else
    let z := T.getSize g.2
    (true, { emit s2 (Event.size z.1) with
      size := wrap D z.1, saveURL := url.take (D.saveURLSize - 1) }, z.2)

/-- The method `open(const char *url, uint32_t offset)`.  The range header is
printed with `"bytes=%d-%d"`, so both numbers go out as `int`. -/
def openURLOffset (D : Decl) (T : Transport W) (url : CStr) (offset : Int)
    (s : State) (w : W) : Bool × State × W :=
  let s1 := emit { s with pos := wrap D offset } (Event.begin url)
  let h := T.sendHEAD (T.collectHeaders (T.setReuse true (T.httpBegin url w)))
  if h.1 ≠ HTTP_CODE_OK then
    openURL D T url (emit s1 Event.log) (T.httpEnd h.2)
  else
    let a := T.acceptRangesBytes h.2
    if a.1 then
      let z := T.getSize a.2
      let s2 := emit (emit { s1 with size := wrap D z.1 } (Event.size z.1))
        (Event.range (i32 offset) (i32 (wrap D z.1 - 1)))
      let g := T.GET (T.addHeaderRange (i32 offset) (i32 (wrap D z.1 - 1)) z.2)
      let s3 := emit s2 (Event.get g.1)
      if g.1 ≠ HTTP_CODE_OK ∧ g.1 ≠ HTTP_CODE_PARTIAL_CONTENT then
        (false, emit s3 (Event.st Status.HTTPFAIL), T.httpEnd g.2)
      else
        (true, { emit s3 Event.log with saveURL := url.take (D.saveURLSize - 1) }, g.2)
    else
      openURL D T url s1 (T.httpEnd a.2)

/-- The loop `for (int i = 0; i < reconnectTries; i++)` of `readInternal`,
by the number of iterations left (`reconnectTries - i`; the body does not
assign `reconnectTries`) and the try number `i`.  Each iteration first prints
its message into `buff`; when the message does not fit, the behaviour is
undefined. -/
def reconnectLoop (D : Decl) (T : Transport W) : Nat → Nat → State → W → Res (State × W)
  | 0, _, s, w => Res.ok (s, w)
  | k + 1, i, s, w =>
    if messageFits i then
      let s1 := emit s (Event.st Status.RECONNECTING)
      let r := openURL D T s1.saveURL s1 (T.delay s1.reconnectDelayMs w)
      if r.1 then Res.ok (emit r.2.1 (Event.st Status.RECONNECTED), r.2.2)
      else reconnectLoop D T k (i + 1) r.2.1 r.2.2
    else Res.overrun

/-- The block of `readInternal` under the label `retry`, up to the test of the
stream's end: the boolean tells whether the function goes on, and it returns 0
when it does not. -/
def connectPhase (D : Decl) (T : Transport W) (s : State) (w : W) : Res (Bool × State × W) :=
  let c := T.connected w
  if c.1 then Res.ok (true, s, c.2)
  else
    match reconnectLoop D T s.reconnectTries.toNat 0
      (emit s (Event.st Status.DISCONNECTED)) (T.httpEnd c.2) with
    | Res.ok r =>
      let c2 := T.connected r.2
      if c2.1 then Res.ok (true, r.1, c2.2)
      else Res.ok (false, emit r.1 (Event.st Status.DISCONNECTED), c2.2)
    | Res.fuel => Res.fuel
    | Res.overrun => Res.overrun

/-- The polling loop
`while ((stream->available() < (int)len) && (millis() - start < 500)) yield();`
with fuel for the number of polls. -/
def pollLoop (T : Transport W) : Nat → Int → Int → W → Option W
  | 0, _, _, _ => none
  | f + 1, len, start, w =>
    let a := T.available w
    if a.1 < i32 len then
      let m := T.millis a.2
      if u32 (m.1 - start) < 500 then pollLoop T f len start (T.yield m.2)
      else some m.2
    else some a.2

/-- How one pass of `readInternal` ends: with a `return`, or with
`goto retry` (the parameter `len` may have been assigned by then). -/
inductive Step (W : Type) where
  | ret (n : Int) (s : State) (w : W)
  | retry (len : Int) (s : State) (w : W)

/-- The length after the statement
`if ( (size > 0) && (len > (uint32_t)(pos - size)) ) len = pos - size;`. -/
def clampLen (s : State) (len : Int) : Int :=
  if 0 < s.size ∧ u32 (s.pos - s.size) < len then u32 (s.pos - s.size) else len

/-- The rest of `readInternal`, from the polling loop on; `none` when the fuel
of the polling loop runs out. -/
def readData (D : Decl) (T : Transport W) (fuel : Nat) (len : Int) (nonBlock : Bool)
    (s : State) (w : W) : Option (Step W) :=
  let w1 : Option W :=
    if nonBlock then some w
    else
      let m := T.millis w
      pollLoop T fuel len (i32 m.1) m.2
  match w1 with
  | none => none
  | some w2 =>
    let a := T.available w2
    let avail := u32 a.1
    if nonBlock = false ∧ avail = 0 then
      some (Step.retry len (emit s (Event.st Status.NODATA)) (T.httpEnd a.2))
    else if avail = 0 then some (Step.ret 0 s a.2)
    else
      let len1 := if avail < len then avail else len
      let r := T.read len1 a.2
      some (Step.ret (u32 r.1)
        (emit { s with pos := wrap D (s.pos + r.1) } (Event.streamRead len1 r.1)) r.2)

/-- One pass of `readInternal`, from the label `retry` to a `return` or to
`goto retry`. -/
def readPass (D : Decl) (T : Transport W) (fuel : Nat) (len : Int) (nonBlock : Bool)
    (s : State) (w : W) : Res (Step W) :=
  match connectPhase D T s w with
  | Res.ok c =>
    if c.1 = false then Res.ok (Step.ret 0 c.2.1 c.2.2)
    else if 0 < c.2.1.size ∧ c.2.1.size ≤ c.2.1.pos then Res.ok (Step.ret 0 c.2.1 c.2.2)
    else
      match readData D T fuel (clampLen c.2.1 len) nonBlock c.2.1 c.2.2 with
      | some st => Res.ok st
      | none => Res.fuel
  | Res.fuel => Res.fuel
  | Res.overrun => Res.overrun

/-- The method `readInternal(data, len, nonBlock)`.  The fuel bounds the
number of passes and, in each pass, the number of polls. -/
def readInternal (D : Decl) (T : Transport W) :
    Nat → Int → Bool → State → W → Res (Int × State × W)
  | 0, _, _, _, _ => Res.fuel
  | f + 1, len, nonBlock, s, w =>
    match readPass D T f len nonBlock s w with
    | Res.ok (Step.ret n s1 w1) => Res.ok (n, s1, w1)
    | Res.ok (Step.retry len1 s1 w1) => readInternal D T f len1 nonBlock s1 w1
    | Res.fuel => Res.fuel
    | Res.overrun => Res.overrun

/-- The method `read(data, len)`; `dataNull` tells whether `data == NULL`. -/
def read (D : Decl) (T : Transport W) (fuel : Nat) (dataNull : Bool) (len : Int)
    (s : State) (w : W) : Res (Int × State × W) :=
  if dataNull then Res.ok (0, emit s Event.log, w)
  else readInternal D T fuel len false s w

/-- The method `readNonBlock(data, len)`. -/
def readNonBlock (D : Decl) (T : Transport W) (fuel : Nat) (dataNull : Bool) (len : Int)
    (s : State) (w : W) : Res (Int × State × W) :=
  if dataNull then Res.ok (0, emit s Event.log, w)
  else readInternal D T fuel len true s w

/-- The length of an internal read of `seek`:
`uint32_t toRead = pos - this->pos; if (toRead > 128) toRead = 128;`. -/
def toRead (p : Int) (s : State) : Int :=
  if 128 < u32 (p - s.pos) then 128 else u32 (p - s.pos)

/-- The loop `while (this->pos < pos)` of `seek`.  The comparison is made in
the type of the member: the argument, an `int32_t`, is converted to it.  The
first fuel is that of each internal read, the second bounds the number of
iterations. -/
def seekLoop (D : Decl) (T : Transport W) (f : Nat) : Nat → Int → State → W →
    Res (Bool × State × W)
  | 0, _, _, _ => Res.fuel
  | k + 1, p, s, w =>
    if s.pos < wrap D p then
      match read D T f false (toRead p s) s w with
      | Res.ok (n, s1, w1) =>
        if n = 0 then Res.ok (false, s1, w1) else seekLoop D T f k p s1 w1
      | Res.fuel => Res.fuel
      | Res.overrun => Res.overrun
    else Res.ok (true, s, w)

/-- The method `seek(int32_t pos, int dir)`. -/
def seek (D : Decl) (T : Transport W) (f k : Nat) (p dir : Int) (s : State) (w : W) :
    Res (Bool × State × W) :=
  if dir = SEEK_SET ∧ s.pos < wrap D p then seekLoop D T f k p s w
  else Res.ok (false, emit s Event.log, w)

/-! ## Relations between the states of a run -/

/-- The trace of `s'` shows, after that of `s`, a reconnect that succeeded and
was the last to succeed: a request begun on `u`, its GET answered with
`HTTP_CODE_OK`, `http.getSize()` answering `z`, then `RECONNECTED` and no later
`RECONNECTED`; `z` is what the transport answers to `getSize` after a GET that
returned `HTTP_CODE_OK` for a request begun on `u`; and the size of `s'` is
that `z`. -/
def Reported {W : Type} (D : Decl) (T : Transport W) (s s' : State) : Prop :=
  ∃ mid u z post,
    s'.trace = s.trace ++ mid ++
      [Event.begin u, Event.get HTTP_CODE_OK, Event.size z, Event.st Status.RECONNECTED]
      ++ post ∧
    s'.size = wrap D z ∧ statusCount Status.RECONNECTED post = 0 ∧
    ∃ w0, (T.GET (T.setReuse true (T.httpBegin u w0))).1 = HTTP_CODE_OK ∧
      z = (T.getSize (T.GET (T.setReuse true (T.httpBegin u w0))).2).1

/-- What holds between a state of `readInternal` and a later state of the same
call, as long as the stream was not read in between: the trace grows, the
budget is kept, the position changes only through `open`, which zeroes it, the
size changes only with a `RECONNECTED` notification, and each `RECONNECTING`
notification comes with one `open`. -/
structure Pre {W : Type} (D : Decl) (T : Transport W) (s s' : State) : Prop where
  ext : ∃ e, s'.trace = s.trace ++ e
  tries : s'.reconnectTries = s.reconnectTries
  opens_le : nOpen s ≤ nOpen s'
  pos_same : nOpen s' = nOpen s → s'.pos = s.pos
  pos_zero : nOpen s < nOpen s' → s'.pos = 0
  rec_le : nSt Status.RECONNECTED s ≤ nSt Status.RECONNECTED s'
  rec_opens : nSt Status.RECONNECTED s' + nOpen s ≤ nSt Status.RECONNECTED s + nOpen s'
  size_same : nSt Status.RECONNECTED s' = nSt Status.RECONNECTED s → s'.size = s.size
  size_new : nSt Status.RECONNECTED s < nSt Status.RECONNECTED s' → Reported D T s s'
  nodata_le : nSt Status.NODATA s ≤ nSt Status.NODATA s'
  attempts : nSt Status.RECONNECTING s' + nOpen s = nSt Status.RECONNECTING s + nOpen s'
  reads : streamReads s'.trace = streamReads s.trace
  requests : streamRequests s'.trace = streamRequests s.trace

/-- How a call of `readInternal` ends from the state `sm` reached before its
last statement: it returns 0 and leaves the state, or it reads the stream
once, with a length of at most `len` (and not negative unless `len` is), adds
what the stream returned to the position and returns it. -/
def Last {W : Type} (D : Decl) (T : Transport W) (len : Int) (sm : State) (n : Int)
    (s' : State) : Prop :=
  (n = 0 ∧ s' = sm) ∨
  ∃ len1 r w0, r = (T.read len1 w0).1 ∧ (len1 ≤ len ∧ (0 ≤ len → 0 ≤ len1)) ∧ n = u32 r ∧
    s' = emit { sm with pos := wrap D (sm.pos + r) } (Event.streamRead len1 r)

/-- The states in which the loop of `seek` tests its condition, in a seek to
`p` started in `s` and `w`: each is reached from the one before by an internal
read that returned a count other than 0. -/
inductive SeekReach {W : Type} (D : Decl) (T : Transport W) (f : Nat) (p : Int)
    (s : State) (w : W) : State → W → Prop where
  | start : SeekReach D T f p s w s w
  | step {t : State} {c : W} {n : Int} {t2 : State} {c2 : W} :
    SeekReach D T f p s w t c → t.pos < wrap D p →
    read D T f false (toRead p t) t c = Res.ok (n, t2, c2) → n ≠ 0 →
    SeekReach D T f p s w t2 c2

/-- The internal read that `seek` makes in the state `t` returns a count other
than 0, makes no `open` (no reconnect attempt), and the stream read that ends
it returned a count between 0 and the length asked for. -/
def GoodRead {W : Type} (D : Decl) (T : Transport W) (f : Nat) (p : Int) (t : State)
    (c : W) : Prop :=
  ∃ n t2 c2, read D T f false (toRead p t) t c = Res.ok (n, t2, c2) ∧ n ≠ 0 ∧
    nOpen t2 = nOpen t ∧
    ∀ l r, t2.trace.getLast? = some (Event.streamRead l r) → 0 ≤ r ∧ r ≤ l

/-! ## Scripted transports, for concrete runs -/

/-- The world of the scripted transport: a server that answers the coming GET
requests from a script (status code, declared size, bytes that become
readable), a socket with `avail` readable bytes, and a clock. -/
structure Sim where
  conn : Bool
  avail : Int
  declared : Int
  gets : List (Int × Int × Int)
  headCode : Int
  ranges : Bool
  clock : Int
  deriving DecidableEq, Repr

/-- The scripted transport.  A read hands out what was asked for, up to what
is readable; `end` closes the connection; the clock advances by 250 at each
reading of it. -/
def simT : Transport Sim where
  httpBegin := fun _ w => w
  setReuse := fun _ w => w
  collectHeaders := fun w => w
  GET := fun w =>
    match w.gets with
    | [] => (-1, { w with conn := false, avail := 0 })
    | (c, z, b) :: r =>
      if c = 200 ∨ c = 206 then (c, { w with conn := true, avail := b, declared := z, gets := r })
      else (c, { w with conn := false, avail := 0, gets := r })
  sendHEAD := fun w => (w.headCode, w)
  acceptRangesBytes := fun w => (w.ranges, w)
  addHeaderRange := fun _ _ w => w
  getSize := fun w => (w.declared, w)
  httpEnd := fun w => { w with conn := false, avail := 0 }
  connected := fun w => (w.conn, w)
  available := fun w => (w.avail, w)
  read := fun len w => (min len w.avail, { w with avail := w.avail - min len w.avail })
  millis := fun w => (w.clock, { w with clock := u32 (w.clock + 250) })
  yield := fun w => w
  delay := fun _ w => w

/-- The scripted transport with the server gone: `connected()` is false and
every GET fails. -/
def deadT : Transport Sim :=
  { simT with connected := fun w => (false, w), GET := fun w => (-1, w) }

/-- A transport that stays connected and never has a byte to read; its world
is the clock, which advances by 500 at each reading of it. -/
def stallT : Transport Int where
  httpBegin := fun _ w => w
  setReuse := fun _ w => w
  collectHeaders := fun w => w
  GET := fun w => (200, w)
  sendHEAD := fun w => (200, w)
  acceptRangesBytes := fun w => (false, w)
  addHeaderRange := fun _ _ w => w
  getSize := fun w => (0, w)
  httpEnd := fun w => w
  connected := fun w => (true, w)
  available := fun w => (0, w)
  read := fun _ w => (0, w)
  millis := fun w => (u32 w, w + 500)
  yield := fun w => w
  delay := fun _ w => w

/-- A transport that stays connected with 1000 bytes to read and answers the
stream reads from a script: its world is the list of the answers to come, and
once the script is used up a read hands out what was asked for. -/
def scriptT : Transport (List Int) where
  httpBegin := fun _ w => w
  setReuse := fun _ w => w
  collectHeaders := fun w => w
  GET := fun w => (200, w)
  sendHEAD := fun w => (200, w)
  acceptRangesBytes := fun w => (false, w)
  addHeaderRange := fun _ _ w => w
  getSize := fun w => (1000, w)
  httpEnd := fun w => w
  connected := fun w => (true, w)
  available := fun w => (1000, w)
  read := fun len w =>
    match w with
    | [] => (len, [])
    | r :: rest => (r, rest)
  millis := fun w => (0, w)
  yield := fun w => w
  delay := fun _ w => w

/-- The declaration of the upstream header: `int pos; int size;` and
`char saveURL[128];`. -/
def declInt : Decl := { signedFields := true, saveURLSize := 128 }

/-- A declaration with `uint32_t` members. -/
def declUInt : Decl := { signedFields := false, saveURLSize := 128 }

/-- The URL `"http://a/b"`. -/
def url0 : CStr := [104, 116, 116, 112, 58, 47, 47, 97, 47, 98]

/-- An object with the given position, size and reconnect budget, and an empty
trace. -/
def mkState (pos size tries : Int) : State :=
  { pos := pos, size := size, reconnectTries := tries, reconnectDelayMs := 1000,
    saveURL := url0, trace := [] }

/-- A world of the scripted transport. -/
def mkSim (conn : Bool) (avail : Int) (gets : List (Int × Int × Int)) : Sim :=
  { conn := conn, avail := avail, declared := 1000, gets := gets, headCode := 200,
    ranges := true, clock := 0 }

/-! ## Traces -/

section Lemmas

variable {W : Type}

theorem opens_append (a b : List Event) : opens (a ++ b) = opens a + opens b := by
  induction a with
  | nil => simp [opens]
  | cons e r ih => cases e <;> simp [opens, ih]; omega

theorem streamReads_append (a b : List Event) :
    streamReads (a ++ b) = streamReads a ++ streamReads b := by
  induction a with
  | nil => simp [streamReads]
  | cons e r ih => cases e <;> simp [streamReads, ih]

theorem streamRequests_append (a b : List Event) :
    streamRequests (a ++ b) = streamRequests a ++ streamRequests b := by
  induction a with
  | nil => simp [streamRequests]
  | cons e r ih => cases e <;> simp [streamRequests, ih]

theorem statusCount_append (c : Status) (a b : List Event) :
    statusCount c (a ++ b) = statusCount c a + statusCount c b := by
  simp [statusCount]

theorem nOpen_emit_st (s : State) (c : Status) : nOpen (emit s (Event.st c)) = nOpen s := by
  simp [nOpen, emit, opens_append, opens]

theorem nSt_emit_st (s : State) (c d : Status) :
    nSt c (emit s (Event.st d)) = nSt c s + (if d = c then 1 else 0) := by
  simp only [nSt, emit, statusCount_append]
  by_cases h : d = c
  · subst h; simp [statusCount]
  · have h2 : ¬ c = d := fun e => h e.symm
    simp [statusCount, List.count_cons, h, h2]

/-- The try numbers whose message fits the buffer are those below 100. -/
theorem messageFits_iff (i : Nat) : messageFits i = true ↔ i < 100 := by
  have h : reconnectText.length = 29 := by decide
  unfold messageFits decimalLength buffSize
  rw [h]
  simp only [decide_eq_true_eq]
  split_ifs <;> omega

/-! ## What `open` does -/

theorem openURL_pos (D : Decl) (T : Transport W) (url : CStr) (s : State) (w : W) :
    (openURL D T url s w).2.1.pos = 0 := by
  unfold openURL
  simp only []
  split <;> simp [emit]

theorem openURL_tries (D : Decl) (T : Transport W) (url : CStr) (s : State) (w : W) :
    (openURL D T url s w).2.1.reconnectTries = s.reconnectTries := by
  unfold openURL
  simp only []
  split <;> simp [emit]

/-- A failed `open`: the request, the status code of its GET, `HTTPFAIL`;
the size and the saved locator are kept. -/
theorem openURL_fail (D : Decl) (T : Transport W) (url : CStr) (s : State) (w : W)
    (h : (openURL D T url s w).1 = false) :
    (openURL D T url s w).2.1.trace = s.trace ++ [Event.begin url,
      Event.get (T.GET (T.setReuse true (T.httpBegin url w))).1, Event.st Status.HTTPFAIL] ∧
    (openURL D T url s w).2.1.size = s.size ∧ (openURL D T url s w).2.1.saveURL = s.saveURL := by
  unfold openURL at h ⊢
  simp only [] at h ⊢
  split <;> simp_all [emit]

/-- A successful `open`: the request, its GET answered with `HTTP_CODE_OK`,
and the size that `http.getSize()` answers after that GET, which is stored. -/
theorem openURL_ok (D : Decl) (T : Transport W) (url : CStr) (s : State) (w : W)
    (h : (openURL D T url s w).1 = true) :
    (openURL D T url s w).2.1.trace = s.trace ++ [Event.begin url, Event.get HTTP_CODE_OK,
      Event.size (T.getSize (T.GET (T.setReuse true (T.httpBegin url w))).2).1] ∧
    (openURL D T url s w).2.1.size
      = wrap D (T.getSize (T.GET (T.setReuse true (T.httpBegin url w))).2).1 ∧
    (T.GET (T.setReuse true (T.httpBegin url w))).1 = HTTP_CODE_OK := by
  unfold openURL at h ⊢
  simp only [] at h ⊢
  split
  · simp_all [emit]
  · rename_i hc
    have hc2 : (T.GET (T.setReuse true (T.httpBegin url w))).1 = HTTP_CODE_OK := by
      simpa using hc
    simp [emit, hc2]

theorem openURL_nOpen (D : Decl) (T : Transport W) (url : CStr) (s : State) (w : W) :
    nOpen (openURL D T url s w).2.1 = nOpen s + 1 := by
  cases h : (openURL D T url s w).1
  · simp [nOpen, (openURL_fail D T url s w h).1, opens_append, opens]
  · simp [nOpen, (openURL_ok D T url s w h).1, opens_append, opens]

theorem openURL_nSt (D : Decl) (T : Transport W) (url : CStr) (s : State) (w : W)
    (c : Status) (hc : c ≠ Status.HTTPFAIL) :
    nSt c (openURL D T url s w).2.1 = nSt c s := by
  have hc2 : ¬ Status.HTTPFAIL = c := fun e => hc e.symm
  cases h : (openURL D T url s w).1
  · simp [nSt, (openURL_fail D T url s w h).1, statusCount_append, statusCount,
      List.count_cons, hc, hc2]
  · simp [nSt, (openURL_ok D T url s w h).1, statusCount_append, statusCount, List.count_cons]

/-- An `open` notifies `HTTPFAIL` exactly when it fails. -/
theorem openURL_nSt_fail (D : Decl) (T : Transport W) (url : CStr) (s : State) (w : W) :
    nSt Status.HTTPFAIL (openURL D T url s w).2.1
      = nSt Status.HTTPFAIL s + (if (openURL D T url s w).1 then 0 else 1) := by
  cases h : (openURL D T url s w).1
  · simp [nSt, (openURL_fail D T url s w h).1, statusCount_append, statusCount, List.count_cons]
  · simp [nSt, (openURL_ok D T url s w h).1, statusCount_append, statusCount, List.count_cons]

theorem openURL_streamRequests (D : Decl) (T : Transport W) (url : CStr) (s : State) (w : W) :
    streamRequests (openURL D T url s w).2.1.trace = streamRequests s.trace := by
  cases h : (openURL D T url s w).1
  · simp [(openURL_fail D T url s w h).1, streamRequests_append, streamRequests]
  · simp [(openURL_ok D T url s w h).1, streamRequests_append, streamRequests]

theorem openURL_streamReads (D : Decl) (T : Transport W) (url : CStr) (s : State) (w : W) :
    streamReads (openURL D T url s w).2.1.trace = streamReads s.trace := by
  cases h : (openURL D T url s w).1
  · simp [(openURL_fail D T url s w h).1, streamReads_append, streamReads]
  · simp [(openURL_ok D T url s w h).1, streamReads_append, streamReads]

end Lemmas

/-! ## The reconnection block -/

section Reconnect

variable {W : Type}

theorem Pre.refl (D : Decl) (T : Transport W) (s : State) : Pre D T s s :=
  { ext := ⟨[], by simp⟩
    tries := rfl, opens_le := le_rfl, pos_same := fun _ => rfl,
    pos_zero := fun h => absurd h (lt_irrefl _), rec_le := le_rfl, rec_opens := le_rfl,
    size_same := fun _ => rfl, size_new := fun h => absurd h (lt_irrefl _),
    nodata_le := le_rfl, attempts := rfl, reads := rfl, requests := rfl }

theorem Pre.trans {D : Decl} {T : Transport W} {a b c : State}
    (h1 : Pre D T a b) (h2 : Pre D T b c) : Pre D T a c := by
  have t1 := h1.opens_le
  have t2 := h2.opens_le
  have t3 := h1.rec_le
  have t4 := h2.rec_le
  have t5 := h1.rec_opens
  have t6 := h2.rec_opens
  have t7 := h1.attempts
  have t8 := h2.attempts
  obtain ⟨e1, x1⟩ := h1.ext
  obtain ⟨e2, x2⟩ := h2.ext
  refine
    { ext := ⟨e1 ++ e2, by rw [x2, x1, List.append_assoc]⟩
      tries := h2.tries.trans h1.tries
      opens_le := le_trans t1 t2
      pos_same := fun h => ?_
      pos_zero := fun h => ?_
      rec_le := le_trans t3 t4
      rec_opens := by omega
      size_same := fun h => ?_
      size_new := fun h => ?_
      nodata_le := le_trans h1.nodata_le h2.nodata_le
      attempts := by omega
      reads := h2.reads.trans h1.reads
      requests := h2.requests.trans h1.requests }
  · rw [h2.pos_same (by omega), h1.pos_same (by omega)]
  · by_cases e : nOpen b < nOpen c
    · exact h2.pos_zero e
    · rw [h2.pos_same (by omega)]
      exact h1.pos_zero (by omega)
  · rw [h2.size_same (by omega), h1.size_same (by omega)]
  · by_cases e : nSt Status.RECONNECTED b < nSt Status.RECONNECTED c
    · obtain ⟨mid, u, z, post, y1, y2, y3, y4⟩ := h2.size_new e
      exact ⟨e1 ++ mid, u, z, post, by rw [y1, x1]; simp, y2, y3, y4⟩
    · have e3 : nSt Status.RECONNECTED c = nSt Status.RECONNECTED b := by omega
      obtain ⟨mid, u, z, post, y1, y2, y3, y4⟩ := h1.size_new (by omega)
      have e4 : statusCount Status.RECONNECTED e2 = 0 := by
        have := e3
        rw [nSt, nSt, x2, statusCount_append] at this
        omega
      refine ⟨mid, u, z, post ++ e2, by rw [x2, y1]; simp, ?_, ?_, y4⟩
      · rw [h2.size_same e3, y2]
      · rw [statusCount_append, y3, e4]

/-- A notification other than `RECONNECTING` and `RECONNECTED` keeps the
relation. -/
theorem Pre.emit_st (D : Decl) (T : Transport W) (s : State) (c : Status)
    (h1 : c ≠ Status.RECONNECTING) (h2 : c ≠ Status.RECONNECTED) :
    Pre D T s (emit s (Event.st c)) := by
  have e1 := nSt_emit_st s Status.RECONNECTED c
  have e2 := nSt_emit_st s Status.RECONNECTING c
  have e3 := nSt_emit_st s Status.NODATA c
  have e4 := nOpen_emit_st s c
  simp only [h1, h2, if_false] at e1 e2
  refine
    { ext := ⟨[Event.st c], rfl⟩
      tries := rfl, opens_le := by omega, pos_same := fun _ => rfl
      pos_zero := fun h => by omega
      rec_le := by omega, rec_opens := by omega, size_same := fun _ => rfl
      size_new := fun h => by omega
      nodata_le := by rw [e3]; omega
      attempts := by omega
      reads := by simp [emit, streamReads_append, streamReads]
      requests := by simp [emit, streamRequests_append, streamRequests] }

/-- One iteration of the reconnection loop: the state after `open`, with the
`RECONNECTED` notification when it succeeded. -/
theorem Pre.attempt (D : Decl) (T : Transport W) (s : State) (w : W) :
    Pre D T s
      (if (openURL D T s.saveURL (emit s (Event.st Status.RECONNECTING)) w).1 then
        emit (openURL D T s.saveURL (emit s (Event.st Status.RECONNECTING)) w).2.1
          (Event.st Status.RECONNECTED)
      else (openURL D T s.saveURL (emit s (Event.st Status.RECONNECTING)) w).2.1) := by
  have o1 := openURL_nOpen D T s.saveURL (emit s (Event.st Status.RECONNECTING)) w
  have o2 := openURL_pos D T s.saveURL (emit s (Event.st Status.RECONNECTING)) w
  have o3 := openURL_tries D T s.saveURL (emit s (Event.st Status.RECONNECTING)) w
  have o4 := openURL_nSt D T s.saveURL (emit s (Event.st Status.RECONNECTING)) w
    Status.RECONNECTED (by decide)
  have o5 := openURL_nSt D T s.saveURL (emit s (Event.st Status.RECONNECTING)) w
    Status.RECONNECTING (by decide)
  have o6 := openURL_nSt D T s.saveURL (emit s (Event.st Status.RECONNECTING)) w
    Status.NODATA (by decide)
  have o7 := openURL_streamReads D T s.saveURL (emit s (Event.st Status.RECONNECTING)) w
  have o8 := openURL_streamRequests D T s.saveURL (emit s (Event.st Status.RECONNECTING)) w
  rw [nOpen_emit_st] at o1
  rw [nSt_emit_st] at o4 o5 o6
  simp only [emit, streamReads_append, streamRequests_append, streamReads, streamRequests,
    List.append_nil] at o7 o8
  simp at o4 o5 o6
  by_cases h : (openURL D T s.saveURL (emit s (Event.st Status.RECONNECTING)) w).1 = true
  · rw [if_pos h]
    have r1 := nSt_emit_st (openURL D T s.saveURL (emit s (Event.st Status.RECONNECTING)) w).2.1
      Status.RECONNECTED Status.RECONNECTED
    have r2 := nSt_emit_st (openURL D T s.saveURL (emit s (Event.st Status.RECONNECTING)) w).2.1
      Status.RECONNECTING Status.RECONNECTED
    have r3 := nSt_emit_st (openURL D T s.saveURL (emit s (Event.st Status.RECONNECTING)) w).2.1
      Status.NODATA Status.RECONNECTED
    have r4 := nOpen_emit_st (openURL D T s.saveURL (emit s (Event.st Status.RECONNECTING)) w).2.1
      Status.RECONNECTED
    simp at r1 r2 r3
    obtain ⟨k1, k2, k3⟩ := openURL_ok D T s.saveURL (emit s (Event.st Status.RECONNECTING)) w h
    refine
      { ext := ⟨_, by
          show (openURL D T s.saveURL (emit s (Event.st Status.RECONNECTING)) w).2.1.trace
            ++ [Event.st Status.RECONNECTED] = _
          rw [k1]
          simp only [emit, List.append_assoc]
          rfl⟩
        tries := o3, opens_le := by omega, pos_same := fun e => by omega
        pos_zero := fun _ => o2
        rec_le := by omega, rec_opens := by omega, size_same := fun e => by omega
        size_new := fun _ => ⟨[Event.st Status.RECONNECTING], s.saveURL, _, [], by
          show (openURL D T s.saveURL (emit s (Event.st Status.RECONNECTING)) w).2.1.trace
            ++ [Event.st Status.RECONNECTED] = _
          rw [k1]
          simp [emit], k2, rfl, w, k3, rfl⟩
        nodata_le := by omega, attempts := by omega
        reads := by simp [emit, streamReads_append, streamReads, o7]
        requests := by simp [emit, streamRequests_append, streamRequests, o8] }
  · rw [if_neg h]
    have hf := openURL_fail D T s.saveURL (emit s (Event.st Status.RECONNECTING)) w (by simpa using h)
    refine
      { ext := ⟨_, by rw [hf.1]; simp only [emit, List.append_assoc]; rfl⟩
        tries := o3, opens_le := by omega, pos_same := fun e => by omega
        pos_zero := fun _ => o2
        rec_le := by omega, rec_opens := by omega, size_same := fun _ => hf.2.1
        size_new := fun e => by omega
        nodata_le := by omega, attempts := by omega
        reads := o7, requests := o8 }

end Reconnect

section ReconnectLoop

variable {W : Type}

theorem reconnectLoop_succ (D : Decl) (T : Transport W) (k i : Nat) (s : State) (w : W) :
    reconnectLoop D T (k + 1) i s w =
      if messageFits i then
        if (openURL D T s.saveURL (emit s (Event.st Status.RECONNECTING))
            (T.delay s.reconnectDelayMs w)).1 then
          Res.ok (emit (openURL D T s.saveURL (emit s (Event.st Status.RECONNECTING))
            (T.delay s.reconnectDelayMs w)).2.1 (Event.st Status.RECONNECTED),
            (openURL D T s.saveURL (emit s (Event.st Status.RECONNECTING))
            (T.delay s.reconnectDelayMs w)).2.2)
        else reconnectLoop D T k (i + 1)
          (openURL D T s.saveURL (emit s (Event.st Status.RECONNECTING))
            (T.delay s.reconnectDelayMs w)).2.1
          (openURL D T s.saveURL (emit s (Event.st Status.RECONNECTING))
            (T.delay s.reconnectDelayMs w)).2.2
      else Res.overrun := rfl

/-- The reconnection loop, when it ends: at most `k` calls of `open`, at most
one `RECONNECTED`, no `NODATA` and no `DISCONNECTED`, and each attempt ends
with one notification, the `HTTPFAIL` of an `open` that failed or
`RECONNECTED`. -/
theorem reconnectLoop_pre (D : Decl) (T : Transport W) (k i : Nat) (s : State) (w : W)
    (r : State × W) (h : reconnectLoop D T k i s w = Res.ok r) :
    Pre D T s r.1 ∧
    nOpen r.1 ≤ nOpen s + k ∧
    nSt Status.RECONNECTED r.1 ≤ nSt Status.RECONNECTED s + 1 ∧
    nSt Status.NODATA r.1 = nSt Status.NODATA s ∧
    nSt Status.DISCONNECTED r.1 = nSt Status.DISCONNECTED s ∧
    nSt Status.RECONNECTING r.1 + nSt Status.HTTPFAIL s + nSt Status.RECONNECTED s
      = nSt Status.RECONNECTING s + nSt Status.HTTPFAIL r.1 + nSt Status.RECONNECTED r.1 := by
  induction k generalizing i s w with
  | zero =>
    simp only [reconnectLoop] at h
    injection h with h
    subst h
    exact ⟨Pre.refl D T s, by simp⟩
  | succ k ih =>
    rw [reconnectLoop_succ] at h
    have hA := Pre.attempt D T s (T.delay s.reconnectDelayMs w)
    have o1 := openURL_nOpen D T s.saveURL (emit s (Event.st Status.RECONNECTING))
      (T.delay s.reconnectDelayMs w)
    have o4 := openURL_nSt D T s.saveURL (emit s (Event.st Status.RECONNECTING))
      (T.delay s.reconnectDelayMs w) Status.RECONNECTED (by decide)
    have o5 := openURL_nSt D T s.saveURL (emit s (Event.st Status.RECONNECTING))
      (T.delay s.reconnectDelayMs w) Status.DISCONNECTED (by decide)
    have o6 := openURL_nSt D T s.saveURL (emit s (Event.st Status.RECONNECTING))
      (T.delay s.reconnectDelayMs w) Status.NODATA (by decide)
    have o7 := openURL_nSt D T s.saveURL (emit s (Event.st Status.RECONNECTING))
      (T.delay s.reconnectDelayMs w) Status.RECONNECTING (by decide)
    have o8 := openURL_nSt_fail D T s.saveURL (emit s (Event.st Status.RECONNECTING))
      (T.delay s.reconnectDelayMs w)
    rw [nOpen_emit_st] at o1
    simp only [nSt_emit_st, reduceCtorEq, if_false, if_true, Nat.add_zero] at o4 o5 o6 o7 o8
    by_cases hm : messageFits i = true
    · rw [if_pos hm] at h
      by_cases ho : (openURL D T s.saveURL (emit s (Event.st Status.RECONNECTING))
          (T.delay s.reconnectDelayMs w)).1 = true
      · rw [if_pos ho] at h hA
        rw [if_pos ho] at o8
        injection h with h
        subst h
        dsimp only
        simp only [nOpen_emit_st, nSt_emit_st, reduceCtorEq, if_false, if_true, Nat.add_zero]
        exact ⟨hA, by omega, by omega, by omega, by omega, by omega⟩
      · rw [if_neg ho] at h hA
        rw [if_neg ho] at o8
        obtain ⟨i1, i2, i3, i4, i5, i6⟩ := ih _ _ _ h
        exact ⟨hA.trans i1, by omega, by omega, by omega, by omega, by omega⟩
    · rw [if_neg hm] at h
      exact absurd h (by simp)

/-- The reconnection block, when it ends: related states, at most
`reconnectTries` calls of `open`, at most one `RECONNECTED`, no `NODATA`, and
each attempt ends with `HTTPFAIL` or `RECONNECTED`. -/
theorem connectPhase_pre (D : Decl) (T : Transport W) (s : State) (w : W)
    (c : Bool × State × W) (h : connectPhase D T s w = Res.ok c) :
    Pre D T s c.2.1 ∧
    nOpen c.2.1 ≤ nOpen s + s.reconnectTries.toNat ∧
    nSt Status.RECONNECTED c.2.1 ≤ nSt Status.RECONNECTED s + 1 ∧
    nSt Status.NODATA c.2.1 = nSt Status.NODATA s ∧
    nSt Status.RECONNECTING c.2.1 + nSt Status.HTTPFAIL s + nSt Status.RECONNECTED s
      = nSt Status.RECONNECTING s + nSt Status.HTTPFAIL c.2.1 + nSt Status.RECONNECTED c.2.1 := by
  unfold connectPhase at h
  dsimp only at h
  by_cases hc : (T.connected w).1 = true
  · rw [if_pos hc] at h
    injection h with h
    subst h
    exact ⟨Pre.refl D T s, Nat.le_add_right _ _, Nat.le_add_right _ _, rfl, rfl⟩
  · rw [if_neg hc] at h
    cases hl : reconnectLoop D T s.reconnectTries.toNat 0
        (emit s (Event.st Status.DISCONNECTED)) (T.httpEnd (T.connected w).2) with
    | fuel => rw [hl] at h; exact absurd h (by simp)
    | overrun => rw [hl] at h; exact absurd h (by simp)
    | ok r =>
      rw [hl] at h
      dsimp only at h
      obtain ⟨i1, i2, i3, i4, _, i6⟩ := reconnectLoop_pre D T _ _ _ _ r hl
      have p0 := Pre.emit_st D T s Status.DISCONNECTED (by decide) (by decide)
      have n1 := nOpen_emit_st s Status.DISCONNECTED
      simp only [nSt_emit_st, reduceCtorEq, if_false, Nat.add_zero] at i3 i4 i6
      split at h
      · injection h with h
        subst h
        dsimp only
        exact ⟨p0.trans i1, by omega, by omega, by omega, by omega⟩
      · injection h with h
        subst h
        dsimp only
        simp only [nOpen_emit_st, nSt_emit_st, reduceCtorEq, if_false, Nat.add_zero]
        exact ⟨(p0.trans i1).trans
          (Pre.emit_st D T _ Status.DISCONNECTED (by decide) (by decide)),
          by omega, by omega, by omega, by omega⟩

end ReconnectLoop

/-! ## One pass of `readInternal` -/

section Pass

variable {W : Type}

theorem clampLen_le (s : State) (len : Int) :
    clampLen s len ≤ len ∧ (0 ≤ len → 0 ≤ clampLen s len) := by
  unfold clampLen u32
  split
  · omega
  · exact ⟨le_rfl, fun h => h⟩

/-- The end of a pass: `goto retry` happens in blocking mode only, after a
`NODATA` notification; a `return` is as `Last` tells. -/
theorem readData_cases (D : Decl) (T : Transport W) (fuel : Nat) (len : Int) (nonBlock : Bool)
    (s : State) (w : W) (st : Step W) (h : readData D T fuel len nonBlock s w = some st) :
    match st with
    | Step.retry len1 s1 _ =>
      nonBlock = false ∧ len1 = len ∧ s1 = emit s (Event.st Status.NODATA)
    | Step.ret n s1 _ => Last D T len s n s1 := by
  unfold readData at h
  simp only [] at h
  split at h
  · exact absurd h (by simp)
  · split at h
    · rename_i hc
      injection h with h
      subst h
      exact ⟨hc.1, rfl, rfl⟩
    · split at h
      · injection h with h
        subst h
        exact Or.inl ⟨rfl, rfl⟩
      · injection h with h
        subst h
        refine Or.inr ⟨_, _, _, rfl, ?_, rfl, rfl⟩
        unfold u32
        split
        · omega
        · exact ⟨le_rfl, fun h => h⟩

end Pass

section Call

variable {W : Type}

theorem Last.mono {D : Decl} {T : Transport W} {len len2 : Int} {sm : State} {n : Int}
    {s1 : State} (h : Last D T len sm n s1) (hl : len ≤ len2 ∧ (0 ≤ len2 → 0 ≤ len)) :
    Last D T len2 sm n s1 := by
  rcases h with h | ⟨l, r, w0, h1, h2, h3, h4⟩
  · exact Or.inl h
  · exact Or.inr ⟨l, r, w0, h1, ⟨le_trans h2.1 hl.1, fun h0 => h2.2 (hl.2 h0)⟩, h3, h4⟩

/-- The last statement of a call adds no notification and no `open`. -/
theorem Last.counts {D : Decl} {T : Transport W} {len : Int} {sm : State} {n : Int}
    {s1 : State} (h : Last D T len sm n s1) (c : Status) :
    nSt c s1 = nSt c sm ∧ nOpen s1 = nOpen sm := by
  rcases h with ⟨_, h2⟩ | ⟨l, r, w0, _, _, _, h4⟩
  · subst h2; exact ⟨rfl, rfl⟩
  · subst h4
    exact ⟨by simp [nSt, emit, statusCount_append, statusCount],
      by simp [nOpen, emit, opens_append, opens]⟩

/-- One pass that ends: the reconnection block leads to a state `sm`, with at
most `reconnectTries` calls of `open` and no `NODATA`, and the pass ends from
it. -/
theorem readPass_cases (D : Decl) (T : Transport W) (fuel : Nat) (len : Int) (nonBlock : Bool)
    (s : State) (w : W) (st : Step W) (h : readPass D T fuel len nonBlock s w = Res.ok st) :
    ∃ sm, Pre D T s sm ∧ nOpen sm ≤ nOpen s + s.reconnectTries.toNat ∧
      nSt Status.NODATA sm = nSt Status.NODATA s ∧
      match st with
      | Step.retry len1 s1 _ =>
        nonBlock = false ∧ (len1 ≤ len ∧ (0 ≤ len → 0 ≤ len1)) ∧
          s1 = emit sm (Event.st Status.NODATA)
      | Step.ret n s1 _ => Last D T len sm n s1 := by
  unfold readPass at h
  cases hc : connectPhase D T s w with
  | fuel => rw [hc] at h; exact absurd h (by simp)
  | overrun => rw [hc] at h; exact absurd h (by simp)
  | ok c =>
    rw [hc] at h
    dsimp only at h
    obtain ⟨c1, c2, _, c4, _⟩ := connectPhase_pre D T s w c hc
    refine ⟨c.2.1, c1, c2, c4, ?_⟩
    split at h
    · injection h with h
      subst h
      exact Or.inl ⟨rfl, rfl⟩
    · split at h
      · injection h with h
        subst h
        exact Or.inl ⟨rfl, rfl⟩
      · cases hd : readData D T fuel (clampLen c.2.1 len) nonBlock c.2.1 c.2.2 with
        | none => rw [hd] at h; exact absurd h (by simp)
        | some st2 =>
          rw [hd] at h
          injection h with h
          subst h
          have hd2 := readData_cases D T fuel _ nonBlock _ _ st2 hd
          cases st2 with
          | ret n s1 w1 => exact Last.mono hd2 (clampLen_le _ _)
          | retry len1 s1 w1 =>
            obtain ⟨d1, d2, d3⟩ := hd2
            exact ⟨d1, by rw [d2]; exact clampLen_le _ _, d3⟩

/-- A call of `readInternal` that returns: a state `sm` is reached without
reading the stream, through one pass more than there were `NODATA`
notifications, each pass with at most `reconnectTries` calls of `open`; the
call ends from `sm`. -/
theorem readInternal_spec (D : Decl) (T : Transport W) (fuel : Nat) (len : Int)
    (nonBlock : Bool) (s : State) (w : W) (n : Int) (s1 : State) (w1 : W)
    (h : readInternal D T fuel len nonBlock s w = Res.ok (n, s1, w1)) :
    ∃ sm, Pre D T s sm ∧
      nOpen sm ≤ nOpen s + (nSt Status.NODATA sm - nSt Status.NODATA s + 1)
        * s.reconnectTries.toNat ∧
      (nonBlock = true → nSt Status.NODATA sm = nSt Status.NODATA s) ∧
      Last D T len sm n s1 := by
  induction fuel generalizing len s w with
  | zero => simp [readInternal] at h
  | succ f ih =>
    unfold readInternal at h
    cases hp : readPass D T f len nonBlock s w with
    | fuel => rw [hp] at h; exact absurd h (by simp)
    | overrun => rw [hp] at h; exact absurd h (by simp)
    | ok st =>
      rw [hp] at h
      cases st with
      | ret n0 s0 w0 =>
        dsimp only at h
        injection h with h
        injection h with h1 h2
        injection h2 with h2 h3
        subst h1 h2 h3
        obtain ⟨sm, p1, p2, p3, p4⟩ := readPass_cases D T f len nonBlock s w _ hp
        refine ⟨sm, p1, ?_, fun _ => p3, p4⟩
        rw [p3]
        simpa using p2
      | retry len1 s0 w0 =>
        dsimp only at h
        obtain ⟨sm, p1, p2, p3, q1, q2, q3⟩ := readPass_cases D T f len nonBlock s w _ hp
        obtain ⟨sm2, r1, r2, r3, r4⟩ := ih len1 s0 w0 h
        have e0 : Pre D T sm s0 := by
          rw [q3]
          exact Pre.emit_st D T sm Status.NODATA (by decide) (by decide)
        have e1 : nOpen s0 = nOpen sm := by rw [q3, nOpen_emit_st]
        have e2 : nSt Status.NODATA s0 = nSt Status.NODATA sm + 1 := by
          rw [q3, nSt_emit_st]; simp
        have e3 : s0.reconnectTries = s.reconnectTries := by
          rw [e0.tries, p1.tries]
        have e4 := r1.nodata_le
        refine ⟨sm2, (p1.trans e0).trans r1, ?_, ?_, Last.mono r4 q2⟩
        · rw [e3] at r2
          have e5 : nSt Status.NODATA sm2 - nSt Status.NODATA s + 1
              = (nSt Status.NODATA sm2 - nSt Status.NODATA s0 + 1) + 1 := by omega
          rw [e5, Nat.add_mul, Nat.one_mul]
          omega
        · intro hb
          rw [q1] at hb
          exact absurd hb (by decide)

end Call

/-! ## Position bookkeeping of a read -/

section ReadPosition

variable {W : Type}

theorem u32_wrap (D : Decl) (v : Int) : u32 (wrap D v) = u32 v := by
  unfold wrap u32 i32
  split <;> omega

end ReadPosition

/-! ## The end of the stream -/

section EndOfStream

variable {W : Type}

/-- Before the declared end (`pos < size`), the statement meant to keep a read
from going past it changes no length below `2^31`: it compares the length with
`(uint32_t)(pos - size)`, which is `2^32 - (size - pos)`. -/
theorem clampLen_before_end (s : State) (len : Int) (h0 : 0 ≤ s.pos) (h1 : s.pos < s.size)
    (h2 : s.size < 2147483648) (h3 : len ≤ 2147483648) : clampLen s len = len := by
  unfold clampLen u32
  split
  · omega
  · rfl

/-- C2 (the code at the failing input): the stream is opened at offset 500 of a
resource of declared size 1000, the server answering the ranged GET with the
whole body; a non-blocking read of 600 bytes then asks the stream for 600 bytes,
returns 600 and leaves the position at 1100, past the declared size. -/
theorem C2_read_past_declared_size :
    (openURLOffset declInt simT url0 500 (mkState 0 0 1)
      (mkSim false 0 [(200, 1000, 1000)])).1 = true ∧
    getPos (openURLOffset declInt simT url0 500 (mkState 0 0 1)
      (mkSim false 0 [(200, 1000, 1000)])).2.1 = 500 ∧
    getSize (openURLOffset declInt simT url0 500 (mkState 0 0 1)
      (mkSim false 0 [(200, 1000, 1000)])).2.1 = 1000 ∧
    (readNonBlock declInt simT 2 false 600
        (openURLOffset declInt simT url0 500 (mkState 0 0 1)
          (mkSim false 0 [(200, 1000, 1000)])).2.1
        (openURLOffset declInt simT url0 500 (mkState 0 0 1)
          (mkSim false 0 [(200, 1000, 1000)])).2.2).get?.map
        (fun r => (r.1, getPos r.2.1, getSize r.2.1, streamRequests r.2.1.trace))
      = some (600, 1100, 1000, [600]) := by
  decide

end EndOfStream

/-! ## Reconnection -/

section Reconnection

variable {W : Type}

/-- The size after a call of `readInternal` that returns. -/
theorem readInternal_size (D : Decl) (T : Transport W) (fuel : Nat) (len : Int)
    (nonBlock : Bool) (s : State) (w : W) (n : Int) (s1 : State) (w1 : W)
    (h : readInternal D T fuel len nonBlock s w = Res.ok (n, s1, w1)) :
    (nSt Status.RECONNECTED s1 = nSt Status.RECONNECTED s → getSize s1 = getSize s) ∧
    (nSt Status.RECONNECTED s1 ≠ nSt Status.RECONNECTED s →
      ∃ mid u z post,
        s1.trace = s.trace ++ mid ++
          [Event.begin u, Event.get HTTP_CODE_OK, Event.size z,
            Event.st Status.RECONNECTED] ++ post ∧
        getSize s1 = u32 z ∧ statusCount Status.RECONNECTED post = 0 ∧
        ∃ w0, (T.GET (T.setReuse true (T.httpBegin u w0))).1 = HTTP_CODE_OK ∧
          z = (T.getSize (T.GET (T.setReuse true (T.httpBegin u w0))).2).1) := by
  obtain ⟨sm, p, _, _, hl⟩ := readInternal_spec D T fuel len nonBlock s w n s1 w1 h
  have hr := p.rec_le
  have e : nSt Status.RECONNECTED s1 = nSt Status.RECONNECTED sm ∧ s1.size = sm.size ∧
      ∃ x, s1.trace = sm.trace ++ x ∧ statusCount Status.RECONNECTED x = 0 := by
    rcases hl with ⟨_, h2⟩ | ⟨l, r, w0, _, _, _, h4⟩
    · subst h2; exact ⟨rfl, rfl, [], by simp, rfl⟩
    · subst h4
      exact ⟨by simp [nSt, emit, statusCount_append, statusCount], rfl,
        [Event.streamRead l r], rfl, by simp [statusCount]⟩
  obtain ⟨e1, e2, x, e3, e4⟩ := e
  constructor
  · intro c
    rw [getSize, getSize, e2, p.size_same (by omega)]
  · intro c
    obtain ⟨mid, u, z, post, y1, y2, y3, y4⟩ := p.size_new (by omega)
    refine ⟨mid, u, z, post ++ x, by rw [e3, y1]; simp, ?_, ?_, y4⟩
    · rw [getSize, e2, y2, u32_wrap]
    · rw [statusCount_append, y3, e4]

/-- C5 (amended): for every call of read or readNonBlock that returns: when
no reconnect attempt of the call succeeded (no `RECONNECTED` notification),
getSize() after the call equals getSize() before the call; when one succeeded,
getSize() is the size the transport reported for the last request re-issued
with success: the trace of the call shows a request begun, its GET answered
with `HTTP_CODE_OK`, `http.getSize()` answering z, then `RECONNECTED` and no
later `RECONNECTED`; z is what the transport answers to `getSize` after the GET
of such a request; and getSize() is z as a `uint32_t`. -/
theorem C5_size_after_read (D : Decl) (T : Transport W) (fuel : Nat) (len : Int)
    (s : State) (w : W) (n : Int) (s1 : State) (w1 : W)
    (h : read D T fuel false len s w = Res.ok (n, s1, w1) ∨
      readNonBlock D T fuel false len s w = Res.ok (n, s1, w1)) :
    (nSt Status.RECONNECTED s1 = nSt Status.RECONNECTED s → getSize s1 = getSize s) ∧
    (nSt Status.RECONNECTED s1 ≠ nSt Status.RECONNECTED s →
      ∃ mid u z post,
        s1.trace = s.trace ++ mid ++
          [Event.begin u, Event.get HTTP_CODE_OK, Event.size z,
            Event.st Status.RECONNECTED] ++ post ∧
        getSize s1 = u32 z ∧ statusCount Status.RECONNECTED post = 0 ∧
        ∃ w0, (T.GET (T.setReuse true (T.httpBegin u w0))).1 = HTTP_CODE_OK ∧
          z = (T.getSize (T.GET (T.setReuse true (T.httpBegin u w0))).2).1) := by
  rcases h with h | h
  · exact readInternal_size D T fuel len false s w n s1 w1 (by simpa [read] using h)
  · exact readInternal_size D T fuel len true s w n s1 w1 (by simpa [readNonBlock] using h)

/-- A read that reconnects at the second attempt, the transport reporting the
size 2000 for that request: getSize() is 2000 afterwards. -/
theorem C5_size_after_read_witness :
    ∃ s1 w1, readNonBlock declInt simT 2 false 100 (mkState 500 1000 3)
        (mkSim false 0 [(503, 0, 0), (200, 2000, 1000)]) = Res.ok (100, s1, w1) ∧
      getSize s1 = 2000 ∧ nSt Status.RECONNECTED s1 = 1 ∧
      ((nSt Status.RECONNECTED s1 = nSt Status.RECONNECTED (mkState 500 1000 3) →
          getSize s1 = getSize (mkState 500 1000 3)) ∧
       (nSt Status.RECONNECTED s1 ≠ nSt Status.RECONNECTED (mkState 500 1000 3) →
          ∃ mid u z post,
            s1.trace = (mkState 500 1000 3).trace ++ mid ++
              [Event.begin u, Event.get HTTP_CODE_OK, Event.size z,
                Event.st Status.RECONNECTED] ++ post ∧
            getSize s1 = u32 z ∧ statusCount Status.RECONNECTED post = 0 ∧
            ∃ w0, (simT.GET (simT.setReuse true (simT.httpBegin u w0))).1 = HTTP_CODE_OK ∧
              z = (simT.getSize (simT.GET (simT.setReuse true (simT.httpBegin u w0))).2).1)) :=
  ⟨_, _, rfl, rfl, rfl,
    C5_size_after_read declInt simT 2 100 (mkState 500 1000 3)
      (mkSim false 0 [(503, 0, 0), (200, 2000, 1000)]) 100 _ _ (Or.inr rfl)⟩

/-- C5 (as stated) fails: a read that reconnects, the transport reporting the
size 2000 for the re-issued request, changes getSize() from 1000 to 2000. -/
theorem C5_counterexample :
    getSize (mkState 500 1000 3) = 1000 ∧
    (readNonBlock declInt simT 2 false 100 (mkState 500 1000 3)
        (mkSim false 0 [(200, 2000, 1000)])).get?.map
        (fun r => (r.1, getSize r.2.1, nSt Status.RECONNECTED r.2.1)) = some (100, 2000, 1) := by
  decide

end Reconnection

/-! ## Opening at an offset -/

section OpenOffset

variable {W : Type}

/-- C6 (amended): for every locator and every offset (a `uint32_t`), after the
call open(locator, offset) the position equals offset when the probe returned OK
and Accept-Ranges is "bytes", whether the ranged GET then succeeds or fails (the
position is assigned before the probe); on the fallback paths (probe failure,
range not advertised) the position is 0, set by open(locator). -/
theorem C6_position_after_open_offset (D : Decl) (T : Transport W) (url : CStr) (offset : Int)
    (s : State) (w : W) (h0 : 0 ≤ offset) (h1 : offset < 4294967296) :
    ((T.sendHEAD (T.collectHeaders (T.setReuse true (T.httpBegin url w)))).1 = HTTP_CODE_OK ∧
      (T.acceptRangesBytes
        (T.sendHEAD (T.collectHeaders (T.setReuse true (T.httpBegin url w)))).2).1 = true →
      getPos (openURLOffset D T url offset s w).2.1 = offset) ∧
    (¬ ((T.sendHEAD (T.collectHeaders (T.setReuse true (T.httpBegin url w)))).1 = HTTP_CODE_OK ∧
      (T.acceptRangesBytes
        (T.sendHEAD (T.collectHeaders (T.setReuse true (T.httpBegin url w)))).2).1 = true) →
      (openURLOffset D T url offset s w).2.1.pos = 0) := by
  have hu : u32 (wrap D offset) = offset := by
    rw [u32_wrap]; unfold u32; omega
  constructor
  · rintro ⟨a, b⟩
    unfold openURLOffset
    simp only [a, b, ne_eq, not_true_eq_false, if_false, if_true]
    split <;> simpa [getPos, emit] using hu
  · intro hn
    unfold openURLOffset
    simp only []
    split
    · exact openURL_pos D T _ _ _
    · rename_i a
      have a2 : (T.sendHEAD (T.collectHeaders (T.setReuse true (T.httpBegin url w)))).1
          = HTTP_CODE_OK := by simpa using a
      have b : ¬ (T.acceptRangesBytes
          (T.sendHEAD (T.collectHeaders (T.setReuse true (T.httpBegin url w)))).2).1 = true :=
        fun hb => hn ⟨a2, hb⟩
      rw [if_neg b]
      exact openURL_pos D T _ _ _

/-- Opening at offset 5: with range support the position is 5; with a failing
probe the position is 0. -/
theorem C6_position_after_open_offset_witness :
    getPos (openURLOffset declInt simT url0 5 (mkState 0 0 1)
      (mkSim false 0 [(206, 1000, 995)])).2.1 = 5 ∧
    ((simT.sendHEAD (simT.collectHeaders (simT.setReuse true
        (simT.httpBegin url0 (mkSim false 0 [(206, 1000, 995)]))))).1 = HTTP_CODE_OK ∧
      (simT.acceptRangesBytes (simT.sendHEAD (simT.collectHeaders (simT.setReuse true
        (simT.httpBegin url0 (mkSim false 0 [(206, 1000, 995)]))))).2).1 = true →
      getPos (openURLOffset declInt simT url0 5 (mkState 0 0 1)
        (mkSim false 0 [(206, 1000, 995)])).2.1 = 5) ∧
    (¬ ((simT.sendHEAD (simT.collectHeaders (simT.setReuse true
        (simT.httpBegin url0 (mkSim false 0 [(206, 1000, 995)]))))).1 = HTTP_CODE_OK ∧
      (simT.acceptRangesBytes (simT.sendHEAD (simT.collectHeaders (simT.setReuse true
        (simT.httpBegin url0 (mkSim false 0 [(206, 1000, 995)]))))).2).1 = true) →
      (openURLOffset declInt simT url0 5 (mkState 0 0 1)
        (mkSim false 0 [(206, 1000, 995)])).2.1.pos = 0) :=
  ⟨by decide, C6_position_after_open_offset declInt simT url0 5 (mkState 0 0 1)
    (mkSim false 0 [(206, 1000, 995)]) (by decide) (by decide)⟩

/-- C6 (as stated) fails: when the probe succeeds, Accept-Ranges is "bytes"
and the ranged GET fails with 404, open(locator, 5) returns failure and the
position is 5, the offset, although the call did not take the range-resumed
success path. -/
theorem C6_counterexample :
    (openURLOffset declInt simT url0 5 (mkState 0 0 1) (mkSim false 0 [(404, 0, 0)])).1 = false ∧
    getPos (openURLOffset declInt simT url0 5 (mkState 0 0 1)
      (mkSim false 0 [(404, 0, 0)])).2.1 = 5 := by
  decide

end OpenOffset

/-! ## A transport that never reconnects -/

section NeverReconnects

variable {W : Type}

theorem statuses_append (a b : List Event) : statuses (a ++ b) = statuses a ++ statuses b := by
  induction a with
  | nil => simp [statuses]
  | cons e r ih => cases e <;> simp [statuses, ih]

theorem statusCount_eq_count (c : Status) (tr : List Event) :
    statusCount c tr = (statuses tr).count c := by
  induction tr with
  | nil => simp [statusCount, statuses]
  | cons e r ih =>
    unfold statusCount at ih ⊢
    cases e <;> simp [statuses, List.count_cons, ih]

theorem count_failedAttempts (k : Nat) :
    (failedAttempts k).count Status.RECONNECTING = k ∧
    (failedAttempts k).count Status.RECONNECTED = 0 := by
  induction k with
  | zero => simp [failedAttempts]
  | succ k ih => simp [failedAttempts, List.count_cons, ih]

/-- When every GET fails, `open` fails and notifies `HTTPFAIL`. -/
theorem openURL_never (D : Decl) (T : Transport W) (hget : ∀ w, (T.GET w).1 ≠ HTTP_CODE_OK)
    (url : CStr) (s : State) (w : W) :
    (openURL D T url s w).1 = false ∧
    statuses (openURL D T url s w).2.1.trace = statuses s.trace ++ [Status.HTTPFAIL] := by
  unfold openURL
  simp only [hget, ne_eq, not_false_eq_true, if_true]
  simp [emit, statuses_append, statuses]

/-- When every GET fails, the reconnection loop makes all its attempts as long
as the try number stays below 100, and overruns the message buffer at the try
number 100. -/
theorem reconnectLoop_never (D : Decl) (T : Transport W)
    (hget : ∀ w, (T.GET w).1 ≠ HTTP_CODE_OK) (k i : Nat) (s : State) (w : W) :
    (i + k ≤ 100 → ∃ r, reconnectLoop D T k i s w = Res.ok r ∧
      statuses r.1.trace = statuses s.trace ++ failedAttempts k) ∧
    (i ≤ 100 → 100 < i + k → reconnectLoop D T k i s w = Res.overrun) := by
  induction k generalizing i s w with
  | zero => exact ⟨fun _ => ⟨_, rfl, by simp [failedAttempts]⟩, fun h1 h2 => by omega⟩
  | succ k ih =>
    obtain ⟨o1, o2⟩ := openURL_never D T hget s.saveURL
      (emit s (Event.st Status.RECONNECTING)) (T.delay s.reconnectDelayMs w)
    rw [reconnectLoop_succ]
    simp only [o1, Bool.false_eq_true, if_false]
    constructor
    · intro hk
      rw [if_pos ((messageFits_iff i).mpr (by omega))]
      obtain ⟨r, h1, h2⟩ := (ih (i + 1) _ _).1 (by omega)
      refine ⟨r, h1, ?_⟩
      rw [h2, o2]
      simp [emit, statuses_append, statuses, failedAttempts]
    · intro h1 h2
      by_cases hi : i < 100
      · rw [if_pos ((messageFits_iff i).mpr hi)]
        exact (ih (i + 1) _ _).2 (by omega) (by omega)
      · have hm : ¬ messageFits i = true := fun e => hi ((messageFits_iff i).mp e)
        rw [if_neg hm]

/-- For every reconnect budget N from 0 to 100, a read or readNonBlock call on
a disconnected stream whose transport never reconnects returns 0, and what it
notifies is, in order: `DISCONNECTED`, then N times `RECONNECTING` followed by
the `HTTPFAIL` of the failed `open`, then the final `DISCONNECTED`. -/
theorem reconnect_budget_exhausted (D : Decl) (T : Transport W) (f : Nat) (len : Int)
    (s : State) (w : W) (N : Nat) (hN : s.reconnectTries = (N : Int)) (h100 : N ≤ 100)
    (hconn : ∀ w, (T.connected w).1 = false) (hget : ∀ w, (T.GET w).1 ≠ HTTP_CODE_OK) :
    ∃ s1 w1, read D T (f + 1) false len s w = Res.ok (0, s1, w1) ∧
      readNonBlock D T (f + 1) false len s w = Res.ok (0, s1, w1) ∧
      statuses s1.trace = statuses s.trace ++
        Status.DISCONNECTED :: (failedAttempts N ++ [Status.DISCONNECTED]) ∧
      nSt Status.RECONNECTING s1 = nSt Status.RECONNECTING s + N ∧
      nSt Status.RECONNECTED s1 = nSt Status.RECONNECTED s := by
  have hk : s.reconnectTries.toNat = N := by omega
  obtain ⟨r, hr1, hr2⟩ := (reconnectLoop_never D T hget N 0
    (emit s (Event.st Status.DISCONNECTED)) (T.httpEnd (T.connected w).2)).1 (by omega)
  have hcp : connectPhase D T s w
      = Res.ok (false, emit r.1 (Event.st Status.DISCONNECTED), (T.connected r.2).2) := by
    unfold connectPhase
    simp only [hconn, Bool.false_eq_true, if_false, hk, hr1]
  have hst : statuses (emit r.1 (Event.st Status.DISCONNECTED)).trace = statuses s.trace ++
      Status.DISCONNECTED :: (failedAttempts N ++ [Status.DISCONNECTED]) := by
    simp only [emit, statuses_append, statuses] at hr2 ⊢
    rw [hr2]
    simp
  refine ⟨emit r.1 (Event.st Status.DISCONNECTED), (T.connected r.2).2, ?_, ?_, hst, ?_, ?_⟩
  · simp [read, readInternal, readPass, hcp]
  · simp [readNonBlock, readInternal, readPass, hcp]
  · have c := (count_failedAttempts N).1
    simp only [nSt, statusCount_eq_count, hst, List.count_append, List.count_cons, c]
    simp
  · have c := (count_failedAttempts N).2
    simp only [nSt, statusCount_eq_count, hst, List.count_append, List.count_cons, c]
    simp

/-- For every reconnect budget above 100, a read or readNonBlock call on a
disconnected stream whose transport never reconnects does not return: its 101st
attempt writes the message past the end of `buff`. -/
theorem reconnect_budget_overrun (D : Decl) (T : Transport W) (f : Nat) (len : Int)
    (s : State) (w : W) (h100 : 100 < s.reconnectTries)
    (hconn : ∀ w, (T.connected w).1 = false) (hget : ∀ w, (T.GET w).1 ≠ HTTP_CODE_OK) :
    read D T (f + 1) false len s w = Res.overrun ∧
    readNonBlock D T (f + 1) false len s w = Res.overrun := by
  have hr := (reconnectLoop_never D T hget s.reconnectTries.toNat 0
    (emit s (Event.st Status.DISCONNECTED)) (T.httpEnd (T.connected w).2)).2 (by omega)
    (by omega)
  have hcp : connectPhase D T s w = Res.overrun := by
    unfold connectPhase
    simp only [hconn, Bool.false_eq_true, if_false, hr]
  constructor
  · simp [read, readInternal, readPass, hcp]
  · simp [readNonBlock, readInternal, readPass, hcp]

/-- C7 (the code at the failing input): with a reconnect budget of 101 and a
transport that never reconnects, neither read nor readNonBlock returns 0 after
101 `RECONNECTING` notifications: at the try number 100 the message
"Attempting to reconnect, try 100" takes 33 bytes with its terminator and is
written into `char buff[32]`, which is undefined behaviour.  With a budget of
100 both return 0 after 100 `RECONNECTING` notifications. -/
theorem C7_buffer_overrun_at_101 :
    messageFits 99 = true ∧ messageFits 100 = false ∧
    (read declInt deadT 1 false 100 (mkState 500 1000 101) (mkSim false 0 []) = Res.overrun ∧
      readNonBlock declInt deadT 1 false 100 (mkState 500 1000 101) (mkSim false 0 [])
        = Res.overrun) ∧
    ∃ s1 w1, read declInt deadT 1 false 100 (mkState 500 1000 100) (mkSim false 0 [])
        = Res.ok (0, s1, w1) ∧
      readNonBlock declInt deadT 1 false 100 (mkState 500 1000 100) (mkSim false 0 [])
        = Res.ok (0, s1, w1) ∧
      statuses s1.trace = statuses (mkState 500 1000 100).trace ++
        Status.DISCONNECTED :: (failedAttempts 100 ++ [Status.DISCONNECTED]) ∧
      nSt Status.RECONNECTING s1 = nSt Status.RECONNECTING (mkState 500 1000 100) + 100 ∧
      nSt Status.RECONNECTED s1 = nSt Status.RECONNECTED (mkState 500 1000 100) :=
  ⟨by decide, by decide,
    reconnect_budget_overrun declInt deadT 0 100 (mkState 500 1000 101) (mkSim false 0 [])
      (by decide) (fun _ => rfl) (fun _ => by show (-1 : Int) ≠ 200; decide),
    reconnect_budget_exhausted declInt deadT 0 100 (mkState 500 1000 100) (mkSim false 0 [])
      100 rfl (by decide) (fun _ => rfl) (fun _ => by show (-1 : Int) ≠ 200; decide)⟩

end NeverReconnects

/-! ## Seeks that are rejected -/

section SeekRejected

variable {W : Type}

/-- C9 (amended): seek(P, dir) returns failure, makes no call on the transport
(so no read) and leaves the object as it was but for one line on the logger,
the position unchanged, whenever the test `dir == SEEK_SET && this->pos < pos`
fails, the comparison being made in the type of the member.  For every current
position Q = getPos() below 2^31 and every direction that is: for every target
P from 0 to 2^31 - 1, and with the members declared `int` also for every
negative P, unless dir == SEEK_SET and P > Q. -/
theorem C9_seek_rejected (D : Decl) (T : Transport W) (f k : Nat) (p dir : Int) (s : State)
    (w : W) (hp1 : -2147483648 ≤ p) (hp2 : p < 2147483648) :
    (¬ (dir = SEEK_SET ∧ s.pos < wrap D p) →
      seek D T f k p dir s w = Res.ok (false, emit s Event.log, w) ∧
      (emit s Event.log).pos = s.pos ∧
      streamReads (emit s Event.log).trace = streamReads s.trace) ∧
    (0 ≤ s.pos → s.pos < 2147483648 → (D.signedFields = true ∨ 0 ≤ p) →
      ¬ (dir = SEEK_SET ∧ getPos s < p) →
      seek D T f k p dir s w = Res.ok (false, emit s Event.log, w)) := by
  constructor
  · intro h
    refine ⟨?_, rfl, ?_⟩
    · unfold seek
      rw [if_neg h]
    · simp [emit, streamReads_append, streamReads]
  · intro h0 h1 hD h
    have hw : wrap D p = p := by
      unfold wrap i32 u32
      rcases hD with hD | hD
      · rw [if_pos hD]; omega
      · split <;> omega
    have hg : getPos s = s.pos := by unfold getPos u32; omega
    unfold seek
    rw [hw, ← hg, if_neg h]

/-- A seek to -1 from position 500 with `int` members, and a seek to 600 in a
direction other than `SEEK_SET`, are rejected. -/
theorem C9_seek_rejected_witness :
    seek declInt simT 3 5 (-1) SEEK_SET (mkState 500 1000 1) (mkSim true 500 [])
        = Res.ok (false, emit (mkState 500 1000 1) Event.log, mkSim true 500 []) ∧
    seek declUInt simT 3 5 600 1 (mkState 500 1000 1) (mkSim true 500 [])
        = Res.ok (false, emit (mkState 500 1000 1) Event.log, mkSim true 500 []) :=
  ⟨(C9_seek_rejected declInt simT 3 5 (-1) SEEK_SET (mkState 500 1000 1) (mkSim true 500 [])
      (by decide) (by decide)).2 (by decide) (by decide) (Or.inl rfl) (by decide),
    ((C9_seek_rejected declUInt simT 3 5 600 1 (mkState 500 1000 1) (mkSim true 500 [])
      (by decide) (by decide)).1 (by decide)).1⟩

/-- C9 (as stated) fails under either declaration of the members.  With `int`
members: after open(url, 3000000000) getPos() is 3000000000, above every
`int32_t` target, yet seek(100, SEEK_SET) is not rejected: the member is
negative, the seek reads 300 bytes from the stream and moves the position to
3000000300.
With `uint32_t` members: seek(-1, SEEK_SET) from position 500 is not rejected:
the target converts to 2^32 - 1 and the seek reads the stream to its end. -/
theorem C9_counterexample :
    getPos (openURLOffset declInt simT url0 3000000000 (mkState 0 0 0)
      (mkSim false 0 [(206, 1000, 300)])).2.1 = 3000000000 ∧
    (seek declInt simT 3 5 100 SEEK_SET
        (openURLOffset declInt simT url0 3000000000 (mkState 0 0 0)
          (mkSim false 0 [(206, 1000, 300)])).2.1
        (openURLOffset declInt simT url0 3000000000 (mkState 0 0 0)
          (mkSim false 0 [(206, 1000, 300)])).2.2).get?.map
      (fun r => (r.1, getPos r.2.1, streamReads r.2.1.trace))
      = some (false, 3000000300, [128, 128, 44]) ∧
    (seek declUInt simT 3 5 (-1) SEEK_SET (mkState 500 1000 1) (mkSim true 500 [])).get?.map
      (fun r => (r.1, getPos r.2.1, streamReads r.2.1.trace))
      = some (false, 1000, [128, 128, 128, 116]) := by
  decide

end SeekRejected
/-! ## Stalls -/

section Stalls

variable {W : Type}

/-- On a transport that never has data, a blocking pass that gets through its
polling loop ends with `NODATA` and `goto retry`. -/
theorem readData_stall (D : Decl) (T : Transport W) (ha : ∀ w, u32 (T.available w).1 = 0)
    (f : Nat) (len : Int) (s : State) (w : W) :
    readData D T f len false s w = none ∨
    ∃ w1, readData D T f len false s w
      = some (Step.retry len (emit s (Event.st Status.NODATA)) w1) := by
  unfold readData
  simp only [Bool.false_eq_true, if_false]
  cases pollLoop T f len (i32 (T.millis w).1) (T.millis w).2 with
  | none => exact Or.inl rfl
  | some w2 =>
    right
    simp only [ha, and_self, if_true]
    exact ⟨_, rfl⟩

/-- On a transport that stays connected and never has data, a blocking call on
a stream that is not at its end never returns: it ends for no fuel. -/
theorem readInternal_stall (D : Decl) (T : Transport W)
    (hc : ∀ w, (T.connected w).1 = true) (ha : ∀ w, u32 (T.available w).1 = 0)
    (fuel : Nat) (len : Int) (s : State) (w : W)
    (he : ¬ (0 < s.size ∧ s.size ≤ s.pos)) :
    readInternal D T fuel len false s w = Res.fuel := by
  induction fuel generalizing len s w with
  | zero => rfl
  | succ f ih =>
    have hcp : connectPhase D T s w = Res.ok (true, s, (T.connected w).2) := by
      simp [connectPhase, hc]
    unfold readInternal readPass
    rw [hcp]
    dsimp only
    rw [if_neg (by simp), if_neg he]
    rcases readData_stall D T ha f (clampLen s len) s (T.connected w).2 with h | ⟨w1, h⟩
    · rw [h]
    · rw [h]
      dsimp only
      exact ih _ _ _ he

end Stalls

section Restarts

variable {W : Type}

/-- The reconnect attempts of a call of `readInternal` that returns. -/
theorem readInternal_attempts (D : Decl) (T : Transport W) (fuel : Nat) (len : Int)
    (nonBlock : Bool) (s : State) (w : W) (n : Int) (s1 : State) (w1 : W)
    (h : readInternal D T fuel len nonBlock s w = Res.ok (n, s1, w1)) :
    nSt Status.NODATA s ≤ nSt Status.NODATA s1 ∧
    nSt Status.RECONNECTING s1 ≤ nSt Status.RECONNECTING s
      + (nSt Status.NODATA s1 - nSt Status.NODATA s + 1) * s.reconnectTries.toNat ∧
    (nonBlock = true → nSt Status.NODATA s1 = nSt Status.NODATA s) := by
  obtain ⟨sm, p, b1, b2, hl⟩ := readInternal_spec D T fuel len nonBlock s w n s1 w1 h
  have a := p.attempts
  have o := p.opens_le
  have d := p.nodata_le
  have c1 := (hl.counts Status.NODATA).1
  have c2 := (hl.counts Status.RECONNECTING).1
  rw [c1, c2]
  refine ⟨d, ?_, b2⟩
  omega

/-- C10 (amended): a blocking read restarts once for each stall it observes,
and nothing bounds the number of stalls.  A blocking read that returns after k
`NODATA` notifications has made at most (k + 1) * reconnectBudget reconnect
attempts; a non-blocking read emits no `NODATA` and makes at most
reconnectBudget reconnect attempts; and on every transport that stays connected
and never has data, a blocking read of any length on a stream that is not at
its end (not size > 0 and position >= size) never returns, whatever the fuel. -/
theorem C10_restart_per_stall (D : Decl) (T : Transport W) (fuel : Nat) (len : Int)
    (s : State) (w : W) :
    (∀ n s1 w1, read D T fuel false len s w = Res.ok (n, s1, w1) →
      nSt Status.NODATA s ≤ nSt Status.NODATA s1 ∧
      nSt Status.RECONNECTING s1 ≤ nSt Status.RECONNECTING s
        + (nSt Status.NODATA s1 - nSt Status.NODATA s + 1) * s.reconnectTries.toNat) ∧
    (∀ n s1 w1, readNonBlock D T fuel false len s w = Res.ok (n, s1, w1) →
      nSt Status.NODATA s1 = nSt Status.NODATA s ∧
      nSt Status.RECONNECTING s1 ≤ nSt Status.RECONNECTING s + s.reconnectTries.toNat) ∧
    ((∀ c, (T.connected c).1 = true) → (∀ c, u32 (T.available c).1 = 0) →
      ¬ (0 < s.size ∧ s.size ≤ s.pos) → read D T fuel false len s w = Res.fuel) := by
  refine ⟨fun n s1 w1 h => ?_, fun n s1 w1 h => ?_, fun hc ha he => ?_⟩
  · obtain ⟨a1, a2, _⟩ :=
      readInternal_attempts D T fuel len false s w n s1 w1 (by simpa [read] using h)
    exact ⟨a1, a2⟩
  · obtain ⟨_, a2, a3⟩ :=
      readInternal_attempts D T fuel len true s w n s1 w1 (by simpa [readNonBlock] using h)
    have e := a3 rfl
    rw [e] at a2
    exact ⟨e, by simpa using a2⟩
  · simpa [read] using readInternal_stall D T hc ha fuel len s w he

/-- A blocking read with a budget of 1 that stalls twice, reconnecting each
time, before 100 bytes arrive: 2 `NODATA` notifications and 3 reconnect
attempts, within (2 + 1) * 1.  And on the transport that stays connected and
never has data, a blocking read at position 500 of 1000 ends for no fuel. -/
theorem C10_restart_per_stall_witness :
    (∃ s1 w1, read declInt simT 9 false 100 (mkState 0 1000 1)
        (mkSim false 0 [(200, 1000, 0), (200, 1000, 0), (200, 1000, 100)])
        = Res.ok (100, s1, w1) ∧
      nSt Status.NODATA s1 = 2 ∧ nSt Status.RECONNECTING s1 = 3 ∧
      nSt Status.NODATA (mkState 0 1000 1) ≤ nSt Status.NODATA s1 ∧
      nSt Status.RECONNECTING s1 ≤ nSt Status.RECONNECTING (mkState 0 1000 1)
        + (nSt Status.NODATA s1 - nSt Status.NODATA (mkState 0 1000 1) + 1)
          * (mkState 0 1000 1).reconnectTries.toNat) ∧
    read declInt stallT 50 false 100 (mkState 500 1000 3) 0 = Res.fuel :=
  ⟨⟨_, _, rfl, rfl, rfl,
    (C10_restart_per_stall declInt simT 9 100 (mkState 0 1000 1)
      (mkSim false 0 [(200, 1000, 0), (200, 1000, 0), (200, 1000, 100)])).1 100 _ _ rfl⟩,
   (C10_restart_per_stall declInt stallT 50 100 (mkState 500 1000 3) 0).2.2
      (fun _ => rfl) (fun _ => rfl) (by decide)⟩

/-- C10 (as stated) fails: with a budget of 1, a blocking read that stalls
twice before 100 bytes arrive emits 2 `NODATA` notifications, restarts twice
and makes 3 reconnect attempts, more than 2 * 1. -/
theorem C10_counterexample :
    (read declInt simT 9 false 100 (mkState 0 1000 1)
        (mkSim false 0 [(200, 1000, 0), (200, 1000, 0), (200, 1000, 100)])).get?.map
        (fun r => (r.1, nSt Status.NODATA r.2.1, nSt Status.RECONNECTING r.2.1, nOpen r.2.1))
      = some (100, 2, 3, 3) := by
  decide

end Restarts

/-! ## Forward seeks -/

section Seek

variable {W : Type}

theorem wrap_of_range (D : Decl) (v : Int) (h0 : 0 ≤ v) (h1 : v < 2147483648) : wrap D v = v := by
  unfold wrap i32 u32
  split <;> omega

theorem seekLoop_succ (D : Decl) (T : Transport W) (f k : Nat) (p : Int) (s : State) (w : W) :
    seekLoop D T f (k + 1) p s w =
      if s.pos < wrap D p then
        match read D T f false (toRead p s) s w with
        | Res.ok (n, s1, w1) =>
          if n = 0 then Res.ok (false, s1, w1) else seekLoop D T f k p s1 w1
        | Res.fuel => Res.fuel
        | Res.overrun => Res.overrun
      else Res.ok (true, s, w) := rfl

/-- The length of an internal read, below the target: from 1 to 128, and
within the distance. -/
theorem toRead_bounds (p : Int) (t : State) (h0 : 0 ≤ t.pos) (h1 : t.pos < p)
    (hp : p < 2147483648) :
    0 < toRead p t ∧ toRead p t ≤ 128 ∧ t.pos + toRead p t ≤ p := by
  unfold toRead u32
  split <;> omega

/-- An internal read of `seek` that returns a count other than 0 without an
`open`, the stream read that ends it having returned a count between 0 and the
length asked for: the position advanced by that count, of at least one byte,
and stays within the target. -/
theorem read_step (D : Decl) (T : Transport W) (p : Int) (hp : p < 2147483648)
    (f : Nat) (len : Int) (t : State) (c : W) (n : Int) (t2 : State) (c2 : W)
    (hl0 : 0 ≤ len) (hl1 : len ≤ 128) (h0 : 0 ≤ t.pos) (hb : t.pos + len ≤ p)
    (h : read D T f false len t c = Res.ok (n, t2, c2)) (hn : n ≠ 0)
    (ho : nOpen t2 = nOpen t)
    (hh : ∀ l r, t2.trace.getLast? = some (Event.streamRead l r) → 0 ≤ r ∧ r ≤ l) :
    ∃ l r, 0 < r ∧ r ≤ l ∧ l ≤ 128 ∧ t2.pos = t.pos + r ∧ t2.pos ≤ p ∧
      streamReads t2.trace = streamReads t.trace ++ [r] ∧
      streamRequests t2.trace = streamRequests t.trace ++ [l] := by
  have h' : readInternal D T f len false t c = Res.ok (n, t2, c2) := by simpa [read] using h
  obtain ⟨sm, pre, _, _, hl⟩ := readInternal_spec D T f len false t c n t2 c2 h'
  rcases hl with ⟨e, _⟩ | ⟨l, r, w0, _, ⟨hr2, _⟩, hr4, hr5⟩
  · exact absurd e hn
  · have hlast : t2.trace.getLast? = some (Event.streamRead l r) := by
      rw [hr5]; simp [emit]
    obtain ⟨r0, r1⟩ := hh l r hlast
    have rpos : 0 < r := by
      by_contra x
      have x0 : r = 0 := by omega
      rw [x0] at hr4
      exact hn hr4
    have e1 : nOpen t2 = nOpen sm := by
      rw [hr5]; simp [nOpen, emit, opens_append, opens]
    have e2 : t2.pos = wrap D (sm.pos + r) := by rw [hr5]; rfl
    have e3 : streamReads t2.trace = streamReads sm.trace ++ [r] := by
      rw [hr5]; simp [emit, streamReads_append, streamReads]
    have e4 : streamRequests t2.trace = streamRequests sm.trace ++ [l] := by
      rw [hr5]; simp [emit, streamRequests_append, streamRequests]
    have e5 : sm.pos = t.pos := pre.pos_same (by omega)
    have e6 : t2.pos = t.pos + r := by
      rw [e2, e5]; exact wrap_of_range D _ (by omega) (by omega)
    exact ⟨l, r, rpos, r1, by omega, e6, by omega, by rw [e3, pre.reads],
      by rw [e4, pre.requests]⟩

/-- The loop of `seek` from a state it reaches, when every internal read of
the run is good: it ends with success within as many iterations as bytes are
left, the position is the target, and the stream reads returned the distance
in all, each at least a byte and at most the 128 bytes or less asked for. -/
theorem seekLoop_good (D : Decl) (T : Transport W) (f : Nat) (p : Int) (s : State) (w : W)
    (hp : p < 2147483648)
    (hgood : ∀ t c, SeekReach D T f p s w t c → t.pos < p → GoodRead D T f p t c)
    (m : Nat) (t : State) (c : W) (hr : SeekReach D T f p s w t c)
    (h0 : 0 ≤ t.pos) (h1 : t.pos ≤ p) (hm : (p - t.pos).toNat ≤ m) (k : Nat)
    (hk : m + 1 ≤ k) :
    ∃ s1 w1, seekLoop D T f k p t c = Res.ok (true, s1, w1) ∧ s1.pos = p ∧
      nOpen s1 = nOpen t ∧
      ∃ rs qs, streamReads s1.trace = streamReads t.trace ++ rs ∧ rs.sum = p - t.pos ∧
        streamRequests s1.trace = streamRequests t.trace ++ qs ∧
        (∀ r ∈ rs, 0 < r ∧ r ≤ 128) ∧ (∀ q ∈ qs, q ≤ 128) := by
  have hw : wrap D p = p := wrap_of_range D p (by omega) hp
  induction m generalizing t c k with
  | zero =>
    obtain ⟨k, rfl⟩ : ∃ j, k = j + 1 := ⟨k - 1, by omega⟩
    refine ⟨t, c, ?_, by omega, rfl, [], [], by simp, by simp; omega, by simp, by simp, by simp⟩
    rw [seekLoop_succ, hw, if_neg (by omega)]
  | succ m ih =>
    obtain ⟨k, rfl⟩ : ∃ j, k = j + 1 := ⟨k - 1, by omega⟩
    by_cases hlt : t.pos < p
    · obtain ⟨n, t2, c2, g1, g2, g3, g4⟩ := hgood t c hr hlt
      obtain ⟨b1, b2, b3⟩ := toRead_bounds p t h0 hlt hp
      obtain ⟨l, r, q1, q2, q3, q4, q5, q6, q7⟩ := read_step D T p hp f (toRead p t) t c n t2 c2
        (le_of_lt b1) b2 h0 b3 g1 g2 g3 g4
      have hr2 : SeekReach D T f p s w t2 c2 :=
        SeekReach.step hr (by rw [hw]; exact hlt) g1 g2
      obtain ⟨s1, w1, i1, i2, i3, rs, qs, i4, i5, i6, i7, i8⟩ :=
        ih t2 c2 hr2 (by omega) q5 (by omega) k (by omega)
      refine ⟨s1, w1, ?_, i2, by rw [i3, g3], r :: rs, l :: qs, ?_, ?_, ?_, ?_, ?_⟩
      · rw [seekLoop_succ, hw, if_pos hlt, g1]
        dsimp only
        rw [if_neg g2, i1]
      · rw [i4, q6]; simp
      · rw [List.sum_cons, i5, q4]; omega
      · rw [i6, q7]; simp
      · intro x hx
        rcases List.mem_cons.mp hx with e | e
        · rw [e]; exact ⟨q1, by omega⟩
        · exact i7 x e
      · intro x hx
        rcases List.mem_cons.mp hx with e | e
        · rw [e]; exact q3
        · exact i8 x e
    · refine ⟨t, c, ?_, by omega, rfl, [], [], by simp, by simp; omega, by simp, by simp,
        by simp⟩
      rw [seekLoop_succ, hw, if_neg hlt]

/-- What the loop of `seek` returns from a state it reaches, it returns from
the start, given the iterations to get there. -/
theorem seekLoop_of_reach (D : Decl) (T : Transport W) (f : Nat) (p : Int) (s : State)
    (w : W) (t : State) (c : W) (hr : SeekReach D T f p s w t c) :
    ∃ j, ∀ k r, seekLoop D T f k p t c = Res.ok r → seekLoop D T f (k + j) p s w = Res.ok r := by
  induction hr with
  | start => exact ⟨0, fun k r h => h⟩
  | step hprev hlt hread hn ih =>
    obtain ⟨j, hj⟩ := ih
    refine ⟨j + 1, fun k r h => ?_⟩
    have e : k + (j + 1) = (k + 1) + j := by omega
    rw [e]
    apply hj
    rw [seekLoop_succ, if_pos hlt, hread]
    dsimp only
    rw [if_neg hn, h]

end Seek

section SeekForward

variable {W : Type}

/-- C8 (amended): for every current position Q >= 0 and every target P with
Q < P < 2^31 (the values for which P > Q = getPos() can hold):
a seek(P, SEEK_SET) during which every internal read returns a count other than
0, none makes a reconnect attempt (no `open`), and every stream read returns a
count between 0 and the length asked for, returns success within P - Q
iterations, consumes exactly P - Q bytes, through internal reads that each ask
the stream for at most 128 bytes and get at least one, and leaves
getPos() == P; and if any internal read of the seek returns 0, the seek returns
failure, with the state that read left.  The conditions are on the states
that the loop of this very seek passes through, not on the transport at large. -/
theorem C8_seek_forward (D : Decl) (T : Transport W) (f : Nat) (p : Int) (s : State) (w : W)
    (h0 : 0 ≤ s.pos) (h1 : s.pos < p) (hp : p < 2147483648) :
    ((∀ t c, SeekReach D T f p s w t c → t.pos < p → GoodRead D T f p t c) →
      ∀ k, (p - s.pos).toNat + 1 ≤ k →
        ∃ s1 w1, seek D T f k p SEEK_SET s w = Res.ok (true, s1, w1) ∧ getPos s1 = p ∧
          nOpen s1 = nOpen s ∧
          ∃ rs qs, streamReads s1.trace = streamReads s.trace ++ rs ∧ rs.sum = p - s.pos ∧
            streamRequests s1.trace = streamRequests s.trace ++ qs ∧
            (∀ r ∈ rs, 0 < r ∧ r ≤ 128) ∧ (∀ q ∈ qs, q ≤ 128)) ∧
    (∀ t c t2 c2, SeekReach D T f p s w t c → t.pos < p →
      read D T f false (toRead p t) t c = Res.ok (0, t2, c2) →
      ∃ k0, ∀ k, k0 ≤ k → seek D T f k p SEEK_SET s w = Res.ok (false, t2, c2)) := by
  have hw : wrap D p = p := wrap_of_range D p (by omega) hp
  have hs : ∀ k, seek D T f k p SEEK_SET s w = seekLoop D T f k p s w := by
    intro k
    unfold seek
    rw [hw, if_pos ⟨rfl, h1⟩]
  constructor
  · intro hgood k hk
    obtain ⟨s1, w1, e1, e2, e3, e4⟩ := seekLoop_good D T f p s w hp hgood (p - s.pos).toNat
      s w SeekReach.start h0 (le_of_lt h1) le_rfl k hk
    refine ⟨s1, w1, by rw [hs, e1], ?_, e3, e4⟩
    rw [getPos, e2]
    unfold u32; omega
  · intro t c t2 c2 hr hlt hread
    obtain ⟨j, hj⟩ := seekLoop_of_reach D T f p s w t c hr
    refine ⟨j + 1, fun k hk => ?_⟩
    obtain ⟨i, rfl⟩ : ∃ i, k = (i + 1) + j := ⟨k - j - 1, by omega⟩
    rw [hs]
    apply hj
    rw [seekLoop_succ, hw, if_pos hlt, hread]
    rfl

/-- A seek from 500 to 600 on the scripted transport, connected with 500 bytes
to read: its only internal read returns 100, the seek returns success, the
position is 600 and the stream handed out the 100 bytes. -/
theorem C8_seek_forward_witness :
    ∃ s1 w1, seek declInt simT 3 101 600 SEEK_SET (mkState 500 1000 1) (mkSim true 500 [])
        = Res.ok (true, s1, w1) ∧ getPos s1 = 600 ∧ nOpen s1 = nOpen (mkState 500 1000 1) ∧
      ∃ rs qs, streamReads s1.trace = streamReads (mkState 500 1000 1).trace ++ rs ∧
        rs.sum = 600 - (mkState 500 1000 1).pos ∧
        streamRequests s1.trace = streamRequests (mkState 500 1000 1).trace ++ qs ∧
        (∀ r ∈ rs, 0 < r ∧ r ≤ 128) ∧ (∀ q ∈ qs, q ≤ 128) := by
  refine (C8_seek_forward declInt simT 3 600 (mkState 500 1000 1) (mkSim true 500 [])
    (by decide) (by decide) (by decide)).1 ?_ 101 (by decide)
  intro t c hr
  have hw : wrap declInt 600 = 600 := by decide
  have key : (t = mkState 500 1000 1 ∧ c = mkSim true 500 []) ∨ t.pos = 600 := by
    induction hr with
    | start => exact Or.inl ⟨rfl, rfl⟩
    | step hprev hlt hread hn ih =>
      rcases ih with ⟨e1, e2⟩ | e
      · right
        subst e1 e2
        have e0 : (read declInt simT 3 false (toRead 600 (mkState 500 1000 1))
            (mkState 500 1000 1) (mkSim true 500 [])).get?.map (fun x => x.2.1.pos)
            = some 600 := by decide
        rw [hread] at e0
        simpa [Res.get?] using e0
      · rw [hw] at hlt
        omega
  intro hlt
  rcases key with ⟨e1, e2⟩ | e
  · subst e1 e2
    refine ⟨100, _, _, rfl, by decide, by decide, fun l r h => ?_⟩
    have h2 : some (Event.streamRead 100 100) = some (Event.streamRead l r) := h
    injection h2 with h3
    injection h3 with h4 h5
    subst h4 h5
    decide
  · omega

/-- C8 (as stated) fails.  A seek from 500 to 600 whose first internal read
finds the stream disconnected and reconnects: no internal read returns 0, the
seek returns success and leaves the position at 600, but it has consumed 600
bytes (reads of 100, 128, 128, 128 and 116), not 100.  A seek from 500 to 600
whose first stream read fails with -1: the first internal read returns
4294967295, not 0 and not a count of at most 128 bytes, the position goes back
to 499, and the seek returns success after the stream handed out 101 bytes.  A
seek from 500 to 600 whose stream read returns 200 for the 100 bytes asked: the
seek returns success with the position at 700. -/
theorem C8_counterexample :
    (seek declInt simT 3 20 600 SEEK_SET (mkState 500 1000 1)
        (mkSim false 0 [(200, 1000, 1000)])).get?.map
        (fun r => (r.1, getPos r.2.1, streamReads r.2.1.trace, (streamReads r.2.1.trace).sum))
      = some (true, 600, [100, 128, 128, 128, 116], 600) ∧
    (read declInt scriptT 3 false (toRead 600 (mkState 500 1000 1))
        (mkState 500 1000 1) [-1]).get?.map
        (fun r => (r.1, getPos r.2.1)) = some (4294967295, 499) ∧
    (seek declInt scriptT 3 20 600 SEEK_SET (mkState 500 1000 1) [-1]).get?.map
        (fun r => (r.1, getPos r.2.1, streamReads r.2.1.trace))
      = some (true, 600, [-1, 101]) ∧
    (seek declInt scriptT 3 20 600 SEEK_SET (mkState 500 1000 1) [200]).get?.map
        (fun r => (r.1, getPos r.2.1, streamRequests r.2.1.trace, streamReads r.2.1.trace))
      = some (true, 700, [100], [200]) := by
  decide

end SeekForward

end AudioFileSourceHTTPStream
